import Mathlib

/-!
# Fledge Python filter-plugin interface

A shallow embedding of
`C/services/filter-plugin-interfaces/python/python_plugin_interface.cpp`:
the entry points `filter_plugin_reconfigure_fn`, `filter_plugin_ingest_fn`,
`filter_plugin_init_fn` and `PluginInterfaceResolveSymbol`.

Conventions of the embedding.

* Pointers are natural numbers and `0` is `NULL`.
* The two process-wide maps `pythonHandles` and `pythonModules` are lists of
  key/value pairs kept in key order (they are `std::map`s); each global is a
  pointer to a map and may itself be `NULL` (`none`).
* `PythonModule` objects live on a heap `mods`; `new` takes the next address
  of a bump allocator and `delete` removes the object from the heap.
* Dereferencing a `PythonModule*` that is `NULL` or not on the heap, or the
  `NULL` map pointer, is undefined behaviour: the embedded function then has no
  result (`none`).
* What the CPython runtime and the interpreted plugin answer during one call
  (the value returned by `Py_NewInterpreter`, `PyImport_ImportModule`,
  `PyObject_GetAttrString`, `PyCallable_Check`, `PyObject_CallFunction`, ...)
  is an input of the embedded function, bundled in an `...Env` record.  An
  interpreted callee that is handed the handle (`plugin_reconfigure`,
  `plugin_ingest`) is summarised by what it does to the entries of the handle
  dictionary (`onHandle`) and by the reference it returns, which may be any
  object of the Python heap `pyObjs`, the handle included.
* Every call reports, in program order, the list of `Event`s it performed:
  registry accesses, lock operations, interpreter creation, imports,
  interpreted calls, asset tracking, deletion of the input reading set,
  construction and destruction of module records.  `Logger` calls and the
  reference counting of temporaries (`pFunc`, `pReturn`, the capsules, the
  readings list) have no effect on the modelled state and are left out.
-/

namespace Fledge

/-! ## Data model -/

/-- A `PyObject*`; `0` is `NULL`.  `PLUGIN_HANDLE` is such a pointer. -/
abbrev PyRef := Nat

/-- A `PythonModule*`; `0` is `NULL`. -/
abbrev ModPtr := Nat

/-- A `PyThreadState*` as returned by `Py_NewInterpreter`; `0` is `NULL`. -/
abbrev Interp := Nat

/-- The part of a Python object the interface looks at: whether it is a `dict`
(`PyDict_Check`) and, if so, its entries. -/
inductive PyVal where
  | dict (entries : String → Option PyRef)
  | other

/-- The test `PyDict_Check`. -/
def PyVal.isDict : PyVal → Bool
  | .dict _ => true
  | .other => false

/-- The entries of a Python object seen as a mapping (none for a non-dict). -/
def PyVal.entries : PyVal → String → Option PyRef
  | .dict d => d
  | .other => fun _ => none

/-- Modelled from the spec: the class `PythonModule` is declared in
`python_plugin_common_interface.h`, outside this source file.
The fields are the spec's ModuleRecord attributes, in the order of the
constructor call `PythonModule(newObj, pythonInitState, pName,
PLUGIN_TYPE_FILTER, newInterp)`, followed by the category name written by
`setCategoryName` and read by `getCategoryName`. -/
structure PythonModule where
  m_module : PyRef
  m_init : Bool
  m_name : String
  m_type : String
  m_tState : Interp
  m_categoryName : String
  deriving DecidableEq

/-- Modelled from the spec: the value of the header constant
`PLUGIN_TYPE_FILTER` (the plugin kind of the shim module `<pluginKind>_shim`). -/
def PLUGIN_TYPE_FILTER : String := "filter"

/-- Modelled from the spec: the value of the header constant
`SHIM_SCRIPT_POSTFIX` (the shim module is named `<pluginKind>_shim`). -/
def SHIM_SCRIPT_POSTFIX : String := "_shim"

/-- The process state the interface reads and writes. -/
structure World where
  /-- The global `pythonHandles`: handle to module record. -/
  pythonHandles : Option (List (PyRef × ModPtr))
  /-- The global `pythonModules`: plugin name to module record. -/
  pythonModules : Option (List (String × ModPtr))
  /-- The live `PythonModule` objects. -/
  mods : ModPtr → Option PythonModule
  /-- The address the next `new PythonModule` returns. -/
  nextMod : ModPtr
  /-- The Python objects, by address. -/
  pyObjs : PyRef → PyVal

/-- The observable steps of a call, in program order. -/
inductive Event where
  /-- Iteration over `pythonHandles` (the scan of `filter_plugin_init_fn`). -/
  | scanHandles
  /-- The lookup `pythonModules->find(name)`. -/
  | findModule (name : String)
  /-- The lookup `pythonHandles->find(h)`. -/
  | findHandle (h : PyRef)
  /-- The call `pythonHandles->insert((h, m))` and whether it inserted. -/
  | insertHandle (h : PyRef) (m : ModPtr) (inserted : Bool)
  /-- The call `PyGILState_Ensure()`: the lock is acquired. -/
  | gilEnsure
  /-- The call `PyGILState_Release(state)`: the lock is released. -/
  | gilRelease
  /-- The call `Py_NewInterpreter()` and its result (`0` on failure); the lock
  stays held across it. -/
  | newInterpreter (i : Interp)
  /-- The call `PyEval_ReleaseThread(i)`: the lock is released. -/
  | releaseThread (i : Interp)
  /-- The call `PyImport_ImportModule(name)` with `sys.argv[1] = pluginArg`. -/
  | importModule (name pluginArg : String)
  /-- The construction `new PythonModule(...)` at address `p`. -/
  | newModule (p : ModPtr)
  /-- The destruction `delete module` of the record at address `p`. -/
  | deleteModule (p : ModPtr)
  /-- The release `Py_CLEAR(module->m_module)` of a module code reference. -/
  | pyClear (r : PyRef)
  /-- The lookup `PyObject_GetAttrString(code, name)`. -/
  | getAttr (code : PyRef) (name : String)
  /-- The interpreted call of `plugin_init` on the module code object. -/
  | callInit (code : PyRef) (json : String)
  /-- The interpreted call `plugin_ingest(handle, readingsList)`. -/
  | callIngest (h : PyRef)
  /-- The interpreted call `plugin_reconfigure(handle, config)`. -/
  | callReconfigure (h : PyRef) (config : String)
  /-- The call `addAssetTrackingTuple(category, asset, tag)`. -/
  | assetTrack (category asset tag : String)
  /-- The statement `delete (ReadingSet *)data`. -/
  | deleteReadingSet
  deriving DecidableEq

/-- What a call leaves behind: the new process state, the steps performed and
the value returned to the caller. -/
structure Outcome (α : Type) where
  world : World
  events : List Event
  ret : α

/-! ## The two `std::map`s -/

/-- The lookup `map->find(k)`: the value stored under `k`, if any. -/
def mapFind {κ β : Type} [DecidableEq κ] (k : κ) : List (κ × β) → Option β
  | [] => none
  | (k1, v) :: rest => if k = k1 then some v else mapFind k rest

/-- Placement of a new key in a map kept in increasing key order. -/
def mapPlace {β : Type} (k : Nat) (v : β) : List (Nat × β) → List (Nat × β)
  | [] => [(k, v)]
  | (k1, v1) :: rest =>
    if k < k1 then (k, v) :: (k1, v1) :: rest else (k1, v1) :: mapPlace k v rest

/-- The call `map->insert((k, v))`: when `k` is already a key the map is left
as it is and the flag is `false`; otherwise the pair is added. -/
def mapInsert {β : Type} (k : Nat) (v : β) (m : List (Nat × β)) : List (Nat × β) × Bool :=
  match mapFind k m with
  | some _ => (m, false)
  | none => (mapPlace k v m, true)

/-! ## Python dictionaries -/

/-- The call `PyDict_Clear(o)`: the dictionary at `o` loses all its entries,
in place. -/
def PyDict_Clear (o : PyRef) (w : World) : World :=
  match w.pyObjs o with
  | .dict _ => { w with pyObjs := fun r => if r = o then .dict (fun _ => none) else w.pyObjs r }
  | .other => w

/-- The call `PyDict_Update(a, b)`: every entry of the dictionary at `b` is
stored into the dictionary at `a`, in place, overwriting equal keys. -/
def PyDict_Update (a b : PyRef) (w : World) : World :=
  match w.pyObjs a, w.pyObjs b with
  | .dict da, .dict db =>
    { w with pyObjs := fun r =>
        if r = a then .dict (fun k => match db k with
                                      | some v => some v
                                      | none => da k)
        else w.pyObjs r }
  | _, _ => w

/-! ## Interpreted plugin code -/

/-- What interpreted plugin code does to the entries of a dictionary. -/
abbrev DictEdit := (String → Option PyRef) → String → Option PyRef

/-- The effect on the Python heap of an interpreted plugin function that is
handed the object `handle`: when the object is a dictionary its entries become
`edit` of the former entries, in place; the object stays a dictionary and no
other object is modelled as changed. -/
def pluginEdits (edit : DictEdit) (handle : PyRef) (w : World) : World :=
  match w.pyObjs handle with
  | .dict d => { w with pyObjs := fun r => if r = handle then .dict (edit d) else w.pyObjs r }
  | .other => w

/-! ## `filter_plugin_reconfigure_fn` -/

/-- The answers of the Python runtime during one `filter_plugin_reconfigure_fn`. -/
structure ReconfigureEnv where
  /-- Result of `PyObject_GetAttrString(m_module, "plugin_reconfigure")`. -/
  pFunc : PyRef
  /-- Result of `PyCallable_Check(pFunc)`. -/
  callable : Bool
  /-- Result of `PyObject_CallFunction(pFunc, "Os", handle, config)`; `0` when
  the interpreted call raised. -/
  pReturn : PyRef
  /-- What the interpreted `plugin_reconfigure` does, before it returns or
  raises, to the entries of the handle dictionary it is handed. -/
  onHandle : DictEdit

/-- The function `filter_plugin_reconfigure_fn(handle, config)`.  The local
`std::mutex mtx` is created and destroyed within the call and guards nothing
shared; it is not modelled. -/
def filter_plugin_reconfigure_fn (py : ReconfigureEnv) (handle : PyRef) (config : String)
    (w : World) : Option (Outcome Unit) :=
  if handle = 0 then some ⟨w, [], ()⟩
  else
    match w.pythonHandles with
    | none => some ⟨w, [], ()⟩
    | some hs =>
      match mapFind handle hs with
      | none => some ⟨w, [.findHandle handle], ()⟩
      | some mp =>
        if mp = 0 then some ⟨w, [.findHandle handle], ()⟩
        else
          match w.mods mp with
          | none => none
          | some m =>
            let pre : List Event :=
              [.findHandle handle, .gilEnsure, .getAttr m.m_module "plugin_reconfigure"]
            if py.pFunc = 0 ∨ py.callable = false then
              some ⟨w, pre ++ [.gilRelease], ()⟩
            else
              let evs := pre ++ [.callReconfigure handle config]
              let w1 := pluginEdits py.onHandle handle w
              if py.pReturn = 0 then
                some ⟨w1, evs ++ [.gilRelease], ()⟩
              else if (w1.pyObjs handle).isDict = true
                  ∧ (w1.pyObjs py.pReturn).isDict = true then
                some ⟨PyDict_Update handle py.pReturn (PyDict_Clear handle w1),
                      evs ++ [.gilRelease], ()⟩
              else
                some ⟨w1, evs ++ [.gilRelease], ()⟩

/-! ## `filter_plugin_ingest_fn` -/

/-- A `Reading`, of which the interface reads the asset name only. -/
structure Reading where
  assetName : String
  deriving DecidableEq

/-- A `ReadingSet`: the readings of `getAllReadingsPtr()`, in order. -/
structure ReadingSet where
  readings : List Reading
  deriving DecidableEq

/-- The answers of the runtime during one `filter_plugin_ingest_fn`. -/
structure IngestEnv where
  /-- Result of `PyObject_GetAttrString(m_module, "plugin_ingest")`. -/
  pFunc : PyRef
  /-- Result of `PyCallable_Check(pFunc)`. -/
  callable : Bool
  /-- Whether `AssetTracker::getAssetTracker()` is non-`NULL`. -/
  atr : Bool
  /-- Result of `PyObject_CallFunction(pFunc, "OO", handle, readingsList)`;
  `0` when the interpreted call raised. -/
  pReturn : PyRef
  /-- What the interpreted `plugin_ingest` does, before it returns or raises,
  to the entries of the handle dictionary it is handed. -/
  onHandle : DictEdit

/-- The asset-tracker loop: one `addAssetTrackingTuple` per reading, in order,
when the asset tracker exists. -/
def trackAssets (atr : Bool) (category : String) : List Reading → List Event
  | [] => []
  | r :: rest =>
    (if atr then [Event.assetTrack category r.assetName "Filter"] else [])
      ++ trackAssets atr category rest

/-- The function `filter_plugin_ingest_fn(handle, data)`. -/
def filter_plugin_ingest_fn (py : IngestEnv) (handle : PyRef) (data : ReadingSet)
    (w : World) : Option (Outcome Unit) :=
  if handle = 0 then some ⟨w, [], ()⟩
  else
    match w.pythonHandles with
    | none => some ⟨w, [], ()⟩
    | some hs =>
      match mapFind handle hs with
      | none => some ⟨w, [.findHandle handle], ()⟩
      | some mp =>
        if mp = 0 then some ⟨w, [.findHandle handle], ()⟩
        else
          match w.mods mp with
          | none => none
          | some m =>
            let pre : List Event :=
              [.findHandle handle, .gilEnsure, .getAttr m.m_module "plugin_ingest"]
            if py.pFunc = 0 ∨ py.callable = false then
              some ⟨w, pre ++ [.gilRelease], ()⟩
            else
              some ⟨pluginEdits py.onHandle handle w,
                    pre ++ trackAssets py.atr m.m_categoryName data.readings
                        ++ [.callIngest handle, .deleteReadingSet, .gilRelease], ()⟩

/-! ## `filter_plugin_init_fn` -/

/-- The part of a `ConfigCategory` the interface reads. -/
structure ConfigCategory where
  /-- Result of `getName()`. -/
  name : String
  /-- Result of `getValue("plugin")`. -/
  plugin : String
  /-- Result of `itemsToJSON()`. -/
  itemsJSON : String
  deriving DecidableEq

/-- The answers of the Python runtime during one `filter_plugin_init_fn`. -/
structure InitEnv where
  /-- Result of `Py_NewInterpreter()`; `0` on failure. -/
  newInterp : Interp
  /-- Result of `PyImport_ImportModule(name)`; `0` on failure. -/
  newObj : PyRef
  /-- Result of `PyObject_CallMethod(m_module, "plugin_init", ...)`; `0` when
  the interpreted call raised. -/
  pReturn : PyRef

/-- The loop over `pythonHandles` (lines 316-333): the first entry, in key
order, whose module record carries the name `pName` sets `loadModule` and
yields that record's `m_init`.  Every visited `h->second` is dereferenced. -/
def scanHandles (mods : ModPtr → Option PythonModule) (pName : String) :
    List (PyRef × ModPtr) → Option (Option Bool)
  | [] => some none
  | (_, mp) :: rest =>
    match mods mp with
    | none => none
    | some m => if m.m_name = pName then some (some m.m_init) else scanHandles mods pName rest

/-- The lock release at the end of `filter_plugin_init_fn` (lines 536-544). -/
def releaseLocks (newInterp : Interp) : Event :=
  if newInterp = 0 then .gilRelease else .releaseThread newInterp

/-- Lines 466-547 of `filter_plugin_init_fn`: the interpreted `plugin_init`
call on `module`, the insertion of its result into `pythonHandles`, the lock
release and the return value.  `evs` are the steps performed so far. -/
def initCallAndRegister (py : InitEnv) (config : ConfigCategory) (module : ModPtr)
    (newInterp : Interp) (evs : List Event) (w : World) : Option (Outcome PyRef) :=
  match w.mods module with
  | none => none
  | some m =>
    let evs := evs ++ [.callInit m.m_module config.itemsJSON]
    match w.pythonHandles with
    | none => some ⟨w, evs ++ [releaseLocks newInterp], py.pReturn⟩
    | some hs =>
      match mapInsert py.pReturn module hs with
      | (hs1, true) =>
        some ⟨{ w with pythonHandles := some hs1 },
              evs ++ [.insertHandle py.pReturn module true, releaseLocks newInterp],
              py.pReturn⟩
      | (_, false) =>
        some ⟨{ w with mods := fun p => if p = module then none else w.mods p },
              evs ++ [.insertHandle py.pReturn module false, .pyClear m.m_module,
                      .deleteModule module, releaseLocks newInterp],
              0⟩

/-- Lines 370-459 of `filter_plugin_init_fn` when `loadModule || reloadModule`:
acquire the lock, start a new interpreter, import the shim and build a new
`PythonModule`; then go on with the `plugin_init` call.  (The test of the
result of `new` against `NULL` cannot succeed and is not modelled.) -/
def initLoad (py : InitEnv) (config : ConfigCategory) (pythonInitState : Bool)
    (evs : List Event) (w : World) : Option (Outcome PyRef) :=
  let evs := evs ++ [.gilEnsure, .newInterpreter py.newInterp]
  if py.newInterp = 0 then some ⟨w, evs ++ [.gilRelease], 0⟩
  else
    let evs := evs ++ [.importModule (PLUGIN_TYPE_FILTER ++ SHIM_SCRIPT_POSTFIX) config.plugin]
    if py.newObj = 0 then some ⟨w, evs ++ [.releaseThread py.newInterp], 0⟩
    else
      let newModule : PythonModule :=
        { m_module := py.newObj, m_init := pythonInitState, m_name := config.plugin,
          m_type := PLUGIN_TYPE_FILTER, m_tState := py.newInterp,
          m_categoryName := config.name }
      let w1 : World :=
        { w with mods := fun p => if p = w.nextMod then some newModule else w.mods p,
                 nextMod := w.nextMod + 1 }
      initCallAndRegister py config w.nextMod py.newInterp (evs ++ [.newModule w.nextMod]) w1

/-- Lines 370-371 and 460-464 of `filter_plugin_init_fn` when the record found
in `pythonModules` is used as it is: acquire the lock, overwrite its category
name; then go on with the `plugin_init` call. -/
def initReuse (py : InitEnv) (config : ConfigCategory) (module : ModPtr) (m : PythonModule)
    (evs : List Event) (w : World) : Option (Outcome PyRef) :=
  let w1 : World :=
    { w with mods := fun p =>
        if p = module then some { m with m_categoryName := config.name } else w.mods p }
  initCallAndRegister py config module 0 (evs ++ [.gilEnsure]) w1

/-- The function `filter_plugin_init_fn(config, outHandle, output)`.  The output
handle and stream only travel into the interpreted call, as capsules, and are
left out. -/
def filter_plugin_init_fn (py : InitEnv) (config : ConfigCategory) (w : World) :
    Option (Outcome PyRef) :=
  match w.pythonModules with
  | none => some ⟨w, [], 0⟩
  | some pms =>
    match w.pythonHandles with
    | none => none
    | some hs =>
      match scanHandles w.mods config.plugin hs with
      | none => none
      | some (some pythonInitState) => initLoad py config pythonInitState [.scanHandles] w
      | some none =>
        let evs : List Event := [.scanHandles, .findModule config.plugin]
        match mapFind config.plugin pms with
        | none => initLoad py config false evs w
        | some mp =>
          if mp = 0 then some ⟨w, evs, 0⟩
          else
            match w.mods mp with
            | none => none
            | some m =>
              if m.m_module = 0 then some ⟨w, evs, 0⟩
              else initReuse py config mp m evs w

/-! ## `PluginInterfaceResolveSymbol` -/

/-- The functions whose address `PluginInterfaceResolveSymbol` can return. -/
inductive EntryPoint where
  | plugin_info_fn
  | filter_plugin_init_fn
  | plugin_shutdown_fn
  | filter_plugin_reconfigure_fn
  | filter_plugin_ingest_fn
  deriving DecidableEq

/-- The function `PluginInterfaceResolveSymbol(_sym, pName)`; `none` is the
`NULL` return.  The plugin name only goes into the log messages. -/
def PluginInterfaceResolveSymbol (sym : String) (_pName : String) : Option EntryPoint :=
  if sym = "plugin_info" then some .plugin_info_fn
  else if sym = "plugin_init" then some .filter_plugin_init_fn
  else if sym = "plugin_shutdown" then some .plugin_shutdown_fn
  else if sym = "plugin_reconfigure" then some .filter_plugin_reconfigure_fn
  else if sym = "plugin_ingest" then some .filter_plugin_ingest_fn
  else if sym = "plugin_start" then none
  else none

/-! ## Reading the event list -/

/-- Lock depth after a list of steps, starting from depth `d`: an acquisition
adds one, a release removes one; `none` when a release finds the lock not
held. -/
def lockDepth : Nat → List Event → Option Nat
  | d, [] => some d
  | d, .gilEnsure :: rest => lockDepth (d + 1) rest
  | 0, .gilRelease :: _ => none
  | d + 1, .gilRelease :: rest => lockDepth d rest
  | 0, .releaseThread _ :: _ => none
  | d + 1, .releaseThread _ :: rest => lockDepth d rest
  | d, _ :: rest => lockDepth d rest

/-- Number of lock acquisitions among the steps. -/
def acquisitions (evs : List Event) : Nat :=
  evs.count .gilEnsure

/-- Whether a step releases the lock. -/
def Event.isRelease : Event → Bool
  | .gilRelease => true
  | .releaseThread _ => true
  | _ => false

/-- Number of lock releases among the steps. -/
def releases (evs : List Event) : Nat :=
  evs.countP Event.isRelease

/-- Whether a step is a shim import. -/
def Event.isImport : Event → Bool
  | .importModule _ _ => true
  | _ => false

/-- Whether a step creates an interpreter context. -/
def Event.isNewInterpreter : Event → Bool
  | .newInterpreter i => decide (i ≠ 0)
  | _ => false

/-- Whether a step is an asset-tracking call. -/
def Event.isAssetTrack : Event → Bool
  | .assetTrack _ _ _ => true
  | _ => false

/-- Whether a step reads one of the two registries: the scan of
`pythonHandles` or a lookup in `pythonHandles` or `pythonModules`. -/
def Event.isRegistryRead : Event → Bool
  | .scanHandles => true
  | .findModule _ => true
  | .findHandle _ => true
  | _ => false

/-- Whether a step writes a registry: the insertion into `pythonHandles`. -/
def Event.isRegistryWrite : Event → Bool
  | .insertHandle _ _ _ => true
  | _ => false

/-- Whether a step reads or writes a registry. -/
def Event.isRegistryAccess (e : Event) : Bool :=
  e.isRegistryRead || e.isRegistryWrite

/-- Lock depth after one step, from depth `d`. -/
def Event.lockStep (d : Nat) : Event → Nat
  | .gilEnsure => d + 1
  | .gilRelease => d - 1
  | .releaseThread _ => d - 1
  | _ => d

/-- Every step selected by `p` is performed while the lock is held, the
steps starting at lock depth `d`. -/
def heldAt (p : Event → Bool) : Nat → List Event → Bool
  | _, [] => true
  | d, e :: rest => (!p e || decide (0 < d)) && heldAt p (e.lockStep d) rest

/-- Every step selected by `p` is performed while the lock is not held, the
steps starting at lock depth `d`. -/
def freeAt (p : Event → Bool) : Nat → List Event → Bool
  | _, [] => true
  | d, e :: rest => (!p e || decide (d = 0)) && freeAt p (e.lockStep d) rest

/-- The steps from the first lock acquisition on. -/
def fromFirstEnsure : List Event → List Event
  | [] => []
  | .gilEnsure :: rest => .gilEnsure :: rest
  | _ :: rest => fromFirstEnsure rest

/-! ## Sample states -/

/-- A module record for the plugin `foo`, as `PluginInterfaceInit` builds it. -/
def fooRecord : PythonModule :=
  { m_module := 100, m_init := true, m_name := "foo", m_type := "filter",
    m_tState := 0, m_categoryName := "" }

/-- A Python heap with two dictionaries: object `5` is `{"a": 1}` and object
`6` is `{"b": 2}`. -/
def sampleObjs : PyRef → PyVal := fun r =>
  if r = 5 then .dict (fun k => if k = "a" then some 1 else none)
  else if r = 6 then .dict (fun k => if k = "b" then some 2 else none)
  else .other

/-- Both registries allocated and empty. -/
def emptyWorld : World :=
  { pythonHandles := some [], pythonModules := some [], mods := fun _ => none,
    nextMod := 1, pyObjs := sampleObjs }

/-- The state after `PluginInterfaceInit` loaded `foo`: the module registry
holds its record at address `1`, no handle is registered. -/
def loadedWorld : World :=
  { pythonHandles := some [], pythonModules := some [("foo", 1)],
    mods := fun p => if p = 1 then some fooRecord else none,
    nextMod := 2, pyObjs := sampleObjs }

/-- As `loadedWorld`, with the dictionary `5` registered as a handle of `foo`. -/
def oneHandleWorld : World :=
  { pythonHandles := some [(5, 1)], pythonModules := some [("foo", 1)],
    mods := fun p => if p = 1 then some fooRecord else none,
    nextMod := 2, pyObjs := sampleObjs }

/-- Plugin code that drops what the handle dictionary holds and stores the
single entry `"z": 26` in it. -/
def storeZ : DictEdit := fun _ k => if k = "z" then some 26 else none

/-- A configuration naming the plugin `foo`. -/
def fooConfig : ConfigCategory :=
  { name := "cat1", plugin := "foo", itemsJSON := "{}" }

/-- A batch of two readings. -/
def twoReadings : ReadingSet :=
  { readings := [⟨"pump"⟩, ⟨"fan"⟩] }

/-- Two successive initialisations of the plugin `foo`, each with its own
answers of the runtime: interpreters `3` and `4`, code objects `200` and `201`,
`plugin_init` results `7` and `8`. -/
def twoCalls : List (InitEnv × ConfigCategory) :=
  [(⟨3, 200, 7⟩, fooConfig), (⟨4, 201, 8⟩, fooConfig)]

/-- A module record for a second plugin, `bar`. -/
def barRecord : PythonModule :=
  { m_module := 101, m_init := false, m_name := "bar", m_type := "filter",
    m_tState := 9, m_categoryName := "" }

/-- Two plugins loaded, `foo` at address `1` and `bar` at address `2`; the
only registered handle, object `5`, is an instance of `bar`. -/
def twoPluginWorld : World :=
  { pythonHandles := some [(5, 2)], pythonModules := some [("bar", 2), ("foo", 1)],
    mods := fun p => if p = 1 then some fooRecord else if p = 2 then some barRecord else none,
    nextMod := 3, pyObjs := sampleObjs }

/-! ## Hypotheses of the statements -/

/-- The module record registered for handle `h`, when its pointer is not
`NULL`, is a live object: the entry points may dereference it. -/
def World.HandleLive (w : World) (h : PyRef) : Prop :=
  ∀ hs mp, w.pythonHandles = some hs → mapFind h hs = some mp → mp ≠ 0 →
    ∃ m, w.mods mp = some m

/-- The exits of `filter_plugin_reconfigure_fn` that do not reach the in-place
update: `NULL` handle, handle not registered (no map, no entry, or `NULL`
module pointer), `plugin_reconfigure` missing or not callable, the interpreted
call raising, the result or the handle not being a dictionary. -/
def ReconfigureFails (py : ReconfigureEnv) (handle : PyRef) (w : World) : Prop :=
  handle = 0 ∨ w.pythonHandles = none ∨
  (∃ hs, w.pythonHandles = some hs ∧ mapFind handle hs = none) ∨
  (∃ hs, w.pythonHandles = some hs ∧ mapFind handle hs = some 0) ∨
  py.pFunc = 0 ∨ py.callable = false ∨ py.pReturn = 0 ∨
  (w.pyObjs py.pReturn).isDict = false ∨ (w.pyObjs handle).isDict = false

/-- The failure exits of `filter_plugin_reconfigure_fn` taken before the
interpreted call: `NULL` handle, handle not registered (no map, no entry, or
`NULL` module pointer), `plugin_reconfigure` missing or not callable. -/
def ReconfigureNotCalled (py : ReconfigureEnv) (handle : PyRef) (w : World) : Prop :=
  handle = 0 ∨ w.pythonHandles = none ∨
  (∃ hs, w.pythonHandles = some hs ∧ mapFind handle hs = none) ∨
  (∃ hs, w.pythonHandles = some hs ∧ mapFind handle hs = some 0) ∨
  py.pFunc = 0 ∨ py.callable = false

/-- What `filter_plugin_init_fn` dereferences before it reaches the
interpreted call is live: when `pythonModules` exists, `pythonHandles` exists
and each of its entries points to a live module record, and the record stored
in `pythonModules` under `pName`, when its pointer is not `NULL`, is live. -/
def World.InitSafe (w : World) (pName : String) : Prop :=
  (w.pythonModules ≠ none →
    ∃ hs, w.pythonHandles = some hs ∧ ∀ e ∈ hs, ∃ m, w.mods e.2 = some m) ∧
  (∀ pms mp, w.pythonModules = some pms → mapFind pName pms = some mp → mp ≠ 0 →
    ∃ m, w.mods mp = some m)

/-- A well-formed process state: both registries are allocated; every handle
entry points to a live module record; every record stored in `pythonModules`
under a non-`NULL` pointer is live and carries its key as name (this is how
`PluginInterfaceInit` stores it); live records lie below the allocator's next
address, which is not `NULL`. -/
def World.WF (w : World) : Prop :=
  (∃ hs, w.pythonHandles = some hs ∧ ∀ e ∈ hs, ∃ m, w.mods e.2 = some m) ∧
  (∃ pms, w.pythonModules = some pms ∧
    ∀ name mp, mapFind name pms = some mp → mp ≠ 0 →
      ∃ m, w.mods mp = some m ∧ m.m_name = name) ∧
  (∀ p m, w.mods p = some m → p < w.nextMod) ∧
  0 < w.nextMod

/-- Whether a first `filter_plugin_init_fn` for `pName` uses the record of
`pythonModules` as it is: no handle entry carries the name and the module
registry has the key. -/
def firstCallReuses (w : World) (pName : String) : Bool :=
  match w.pythonHandles, w.pythonModules with
  | some hs, some pms =>
    (scanHandles w.mods pName hs == some none) && (mapFind pName pms).isSome
  | _, _ => false

/-- What a sequence of calls leaves behind: the final state, all the steps
performed and the handles returned, in call order. -/
structure Run where
  world : World
  events : List Event
  rets : List PyRef

/-- A sequence of `filter_plugin_init_fn` calls, each with its own
configuration and its own answers of the runtime, run one after the other. -/
def initSeq : List (InitEnv × ConfigCategory) → World → Option Run
  | [], w => some ⟨w, [], []⟩
  | (py, config) :: rest, w =>
    match filter_plugin_init_fn py config w with
    | none => none
    | some o =>
      match initSeq rest o.world with
      | none => none
      | some r => some ⟨r.world, o.events ++ r.events, o.ret :: r.rets⟩

/-- The module record each of the handles `hs` is registered with in `w`. -/
def modulesOf (w : World) (hs : List PyRef) : List (Option ModPtr) :=
  hs.map (fun h => mapFind h (w.pythonHandles.getD []))

/-- The steps of a call leave the lock as they found it: every release
finds the lock held, the depth returns to zero, and there are as many
releases as acquisitions. -/
def LockBalanced (evs : List Event) : Prop :=
  lockDepth 0 evs = some 0 ∧ acquisitions evs = releases evs

/-- The order of registry accesses and lock steps in a call that starts
without the lock: every registry read is performed while the lock is not
held, none of them comes at or after the first acquisition, and every
registry write is performed while the lock is held. -/
def ReadsThenLockedWrites (evs : List Event) : Prop :=
  freeAt Event.isRegistryRead 0 evs = true ∧
  (fromFirstEnsure evs).any Event.isRegistryRead = false ∧
  heldAt Event.isRegistryWrite 0 evs = true

/-! ## Symbol resolution -/

/-- C7: `PluginInterfaceResolveSymbol` returns an entry point exactly for the
five names `plugin_info`, `plugin_init`, `plugin_shutdown`,
`plugin_reconfigure`, `plugin_ingest`, which resolve to the info, init,
shutdown, reconfigure and ingest functions in this order; `plugin_start` and
every other name give `NULL`; the plugin name has no influence on the result. -/
theorem resolveSymbol_dispatch (sym pName : String) :
    ((PluginInterfaceResolveSymbol sym pName).isSome = true ↔
      sym ∈ ["plugin_info", "plugin_init", "plugin_shutdown", "plugin_reconfigure",
             "plugin_ingest"]) ∧
    PluginInterfaceResolveSymbol "plugin_info" pName = some .plugin_info_fn ∧
    PluginInterfaceResolveSymbol "plugin_init" pName = some .filter_plugin_init_fn ∧
    PluginInterfaceResolveSymbol "plugin_shutdown" pName = some .plugin_shutdown_fn ∧
    PluginInterfaceResolveSymbol "plugin_reconfigure" pName
      = some .filter_plugin_reconfigure_fn ∧
    PluginInterfaceResolveSymbol "plugin_ingest" pName = some .filter_plugin_ingest_fn ∧
    PluginInterfaceResolveSymbol "plugin_start" pName = none ∧
    (∀ other : String,
      PluginInterfaceResolveSymbol sym other = PluginInterfaceResolveSymbol sym pName) := by
  refine ⟨?_, by simp [PluginInterfaceResolveSymbol], by simp [PluginInterfaceResolveSymbol],
    by simp [PluginInterfaceResolveSymbol], by simp [PluginInterfaceResolveSymbol],
    by simp [PluginInterfaceResolveSymbol], by simp [PluginInterfaceResolveSymbol], fun _ => rfl⟩
  unfold PluginInterfaceResolveSymbol
  by_cases h1 : sym = "plugin_info"
  · simp [h1]
  by_cases h2 : sym = "plugin_init"
  · simp [h2]
  by_cases h3 : sym = "plugin_shutdown"
  · simp [h3]
  by_cases h4 : sym = "plugin_reconfigure"
  · simp [h4]
  by_cases h5 : sym = "plugin_ingest"
  · simp [h5]
  simp [h1, h2, h3, h4, h5]

/-! ## Lock steps and counting -/

theorem trackAssets_eq (atr : Bool) (category : String) (rs : List Reading) :
    trackAssets atr category rs
      = if atr then rs.map (fun r => Event.assetTrack category r.assetName "Filter")
        else [] := by
  induction rs with
  | nil => cases atr <;> simp [trackAssets]
  | cons r rest ih => cases atr <;> simp_all [trackAssets]

theorem lockDepth_trackAssets (atr : Bool) (category : String) (rs : List Reading)
    (d : Nat) (rest : List Event) :
    lockDepth d (trackAssets atr category rs ++ rest) = lockDepth d rest := by
  induction rs with
  | nil => simp [trackAssets]
  | cons r rs ih => cases atr <;> simp_all [trackAssets, lockDepth]

theorem count_trackAssets (atr : Bool) (category : String) (rs : List Reading)
    (e : Event) (he : ∀ c a t, e ≠ Event.assetTrack c a t) :
    (trackAssets atr category rs).count e = 0 := by
  induction rs with
  | nil => simp [trackAssets]
  | cons r rs ih =>
    cases atr
    · simpa [trackAssets] using ih
    · have hne := he category r.assetName "Filter"
      simp [trackAssets, List.count_cons, Ne.symm hne]
      simpa using ih

theorem countP_isRelease_trackAssets (atr : Bool) (category : String) (rs : List Reading) :
    (trackAssets atr category rs).countP Event.isRelease = 0 := by
  induction rs with
  | nil => simp [trackAssets]
  | cons r rs ih => cases atr <;> simp_all [trackAssets, Event.isRelease]

/-! ## Reconfiguration -/

theorem lockBalanced_nil : LockBalanced [] := by
  simp [LockBalanced, lockDepth, acquisitions, releases]

theorem lockBalanced_findHandle (h : PyRef) : LockBalanced [.findHandle h] := by
  simp [LockBalanced, lockDepth, acquisitions, releases, Event.isRelease]

theorem pluginEdits_frame (edit : DictEdit) (h : PyRef) (w : World) :
    (pluginEdits edit h w).pythonHandles = w.pythonHandles ∧
    (pluginEdits edit h w).pythonModules = w.pythonModules ∧
    (pluginEdits edit h w).mods = w.mods ∧
    (pluginEdits edit h w).nextMod = w.nextMod ∧
    ∀ r, r ≠ h → (pluginEdits edit h w).pyObjs r = w.pyObjs r := by
  unfold pluginEdits
  cases w.pyObjs h with
  | dict d => exact ⟨rfl, rfl, rfl, rfl, fun r hr => by simp [hr]⟩
  | other => exact ⟨rfl, rfl, rfl, rfl, fun _ _ => rfl⟩

theorem pluginEdits_isDict (edit : DictEdit) (h r : PyRef) (w : World) :
    ((pluginEdits edit h w).pyObjs r).isDict = (w.pyObjs r).isDict := by
  unfold pluginEdits
  cases hh : w.pyObjs h with
  | other => rfl
  | dict d =>
    by_cases hr : r = h
    · subst hr
      simp [hh, PyVal.isDict]
    · simp [hr]

theorem pluginEdits_fixed (edit : DictEdit) (h : PyRef) (w : World)
    (hfix : ∀ d, w.pyObjs h = .dict d → edit d = d) :
    (pluginEdits edit h w).pyObjs h = w.pyObjs h := by
  unfold pluginEdits
  cases hh : w.pyObjs h with
  | other => simp [hh]
  | dict d => simp [hfix d hh]

theorem reconfigureFails_of_notCalled (py : ReconfigureEnv) (handle : PyRef) (w : World)
    (hn : ReconfigureNotCalled py handle w) : ReconfigureFails py handle w := by
  unfold ReconfigureFails
  rcases hn with h | h | h | h | h | h <;> simp [h]

theorem reconfigure_cases (py : ReconfigureEnv) (handle : PyRef) (config : String) (w : World)
    (hlive : w.HandleLive handle) :
    ∃ o, filter_plugin_reconfigure_fn py handle config w = some o ∧
      LockBalanced o.events ∧
      ((ReconfigureNotCalled py handle w ∧ o.world = w) ∨
        (¬ ReconfigureNotCalled py handle w ∧ ReconfigureFails py handle w ∧
          o.world = pluginEdits py.onHandle handle w) ∨
        (¬ ReconfigureFails py handle w ∧
          o.world = PyDict_Update handle py.pReturn
            (PyDict_Clear handle (pluginEdits py.onHandle handle w)))) := by
  unfold filter_plugin_reconfigure_fn
  by_cases h0 : handle = 0
  · simp only [h0, if_true]
    exact ⟨_, rfl, lockBalanced_nil, Or.inl ⟨Or.inl rfl, rfl⟩⟩
  simp only [h0, if_false]
  cases hH : w.pythonHandles with
  | none => exact ⟨_, rfl, lockBalanced_nil, Or.inl ⟨Or.inr (Or.inl hH), rfl⟩⟩
  | some hs =>
    simp only []
    cases hf : mapFind handle hs with
    | none =>
      exact ⟨_, rfl, lockBalanced_findHandle _,
        Or.inl ⟨Or.inr (Or.inr (Or.inl ⟨hs, hH, hf⟩)), rfl⟩⟩
    | some mp =>
      simp only []
      by_cases hmp : mp = 0
      · simp only [hmp, if_true]
        exact ⟨_, rfl, lockBalanced_findHandle _,
          Or.inl ⟨Or.inr (Or.inr (Or.inr (Or.inl ⟨hs, hH, hmp ▸ hf⟩))), rfl⟩⟩
      obtain ⟨m, hm⟩ := hlive hs mp hH hf hmp
      simp only [hmp, if_false, hm]
      by_cases hc : py.pFunc = 0 ∨ py.callable = false
      · simp only [hc, if_true]
        refine ⟨_, rfl, ?_, Or.inl ⟨?_, rfl⟩⟩
        · simp [LockBalanced, lockDepth, acquisitions, releases, Event.isRelease]
        · rcases hc with hc | hc
          · exact Or.inr (Or.inr (Or.inr (Or.inr (Or.inl hc))))
          · exact Or.inr (Or.inr (Or.inr (Or.inr (Or.inr hc))))
      have hcalled : ¬ ReconfigureNotCalled py handle w := by
        push_neg at hc
        simp [ReconfigureNotCalled, h0, hH, hf, hmp, hc.1, hc.2]
      simp only [hc, if_false, pluginEdits_isDict]
      by_cases hr : py.pReturn = 0
      · simp only [hr, if_true]
        refine ⟨_, rfl, ?_, Or.inr (Or.inl ⟨hcalled, ?_, rfl⟩)⟩
        · simp [LockBalanced, lockDepth, acquisitions, releases, Event.isRelease]
        · exact Or.inr (Or.inr (Or.inr (Or.inr (Or.inr (Or.inr (Or.inl hr))))))
      simp only [hr, if_false]
      by_cases hd : (w.pyObjs handle).isDict = true ∧ (w.pyObjs py.pReturn).isDict = true
      · simp only [hd, and_self, if_true]
        refine ⟨_, rfl, ?_, Or.inr (Or.inr ⟨?_, rfl⟩)⟩
        · simp [LockBalanced, lockDepth, acquisitions, releases, Event.isRelease]
        · push_neg at hc
          simp [ReconfigureFails, h0, hH, hf, hmp, hc.1, hc.2, hr, hd.1, hd.2]
      · simp only [hd, if_false]
        refine ⟨_, rfl, ?_, Or.inr (Or.inl ⟨hcalled, ?_, rfl⟩)⟩
        · simp [LockBalanced, lockDepth, acquisitions, releases, Event.isRelease]
        · simp only [not_and, Bool.not_eq_true] at hd
          by_cases hx : (w.pyObjs handle).isDict = true
          · exact Or.inr (Or.inr (Or.inr (Or.inr (Or.inr (Or.inr (Or.inr (Or.inl (hd hx))))))))
          · simp only [Bool.not_eq_true] at hx
            exact Or.inr (Or.inr (Or.inr (Or.inr (Or.inr (Or.inr (Or.inr (Or.inr hx)))))))

theorem PyDict_Clear_frame (o : PyRef) (w : World) :
    (PyDict_Clear o w).pythonHandles = w.pythonHandles ∧
    (PyDict_Clear o w).pythonModules = w.pythonModules ∧
    (PyDict_Clear o w).mods = w.mods ∧
    (PyDict_Clear o w).nextMod = w.nextMod ∧
    ∀ r, r ≠ o → (PyDict_Clear o w).pyObjs r = w.pyObjs r := by
  unfold PyDict_Clear
  cases w.pyObjs o with
  | dict d => exact ⟨rfl, rfl, rfl, rfl, fun r hr => by simp [hr]⟩
  | other => exact ⟨rfl, rfl, rfl, rfl, fun _ _ => rfl⟩

theorem PyDict_Update_frame (a b : PyRef) (w : World) :
    (PyDict_Update a b w).pythonHandles = w.pythonHandles ∧
    (PyDict_Update a b w).pythonModules = w.pythonModules ∧
    (PyDict_Update a b w).mods = w.mods ∧
    (PyDict_Update a b w).nextMod = w.nextMod ∧
    ∀ r, r ≠ a → (PyDict_Update a b w).pyObjs r = w.pyObjs r := by
  unfold PyDict_Update
  split
  · exact ⟨rfl, rfl, rfl, rfl, fun r hr => by simp [hr]⟩
  · exact ⟨rfl, rfl, rfl, rfl, fun _ _ => rfl⟩

theorem oneHandleWorld_live (h : PyRef) : oneHandleWorld.HandleLive h := by
  intro hs mp hH hf hmp
  simp only [oneHandleWorld, Option.some.injEq] at hH
  subst hH
  by_cases h5 : h = 5
  · simp only [mapFind, h5, if_true, Option.some.injEq] at hf
    subst hf
    exact ⟨fooRecord, by simp [oneHandleWorld]⟩
  · simp [mapFind, h5] at hf

/-- C5, as stated, fails: the interpreted `plugin_reconfigure` is handed the
handle and may change its entries before it raises; the handle then holds
what the plugin stored (`"z": 26`), not what it held before the call
(`"a": 1`). -/
theorem reconfigure_failure_keeps_contents_fails :
    ¬ ∀ (py : ReconfigureEnv) (handle : PyRef) (config : String) (w : World),
        w.HandleLive handle → ReconfigureFails py handle w →
        ∃ o, filter_plugin_reconfigure_fn py handle config w = some o ∧
          (o.world.pyObjs handle).entries = (w.pyObjs handle).entries := by
  intro h
  obtain ⟨o, ho, he⟩ := h ⟨9, true, 0, storeZ⟩ 5 "cfg" oneHandleWorld (oneHandleWorld_live 5)
    (by simp [ReconfigureFails])
  have hz : (filter_plugin_reconfigure_fn ⟨9, true, 0, storeZ⟩ 5 "cfg" oneHandleWorld).map
      (fun o => (o.world.pyObjs 5).entries "z") = some (some 26) := rfl
  rw [ho] at hz
  simp only [Option.map_some', Option.some.injEq] at hz
  have hb : (oneHandleWorld.pyObjs 5).entries "z" = none := by decide
  rw [he, hb] at hz
  cases hz

/-- C5, amended: on every failure exit of `filter_plugin_reconfigure_fn` the
call returns and the function itself writes nothing into the handle.  On the
exits taken before the interpreted call (`NULL` or unregistered handle,
`plugin_reconfigure` missing or not callable) the object held by the handle is
what it was before.  On the exits taken after it (the call raised, or the
result or the handle is not a dictionary) the handle holds exactly what the
interpreted `plugin_reconfigure` left in it; this is what it held before the
call whenever the plugin code did not change the handle's entries. -/
theorem reconfigure_failure_writes_nothing (py : ReconfigureEnv) (handle : PyRef)
    (config : String) (w : World) (hlive : w.HandleLive handle)
    (hfail : ReconfigureFails py handle w) :
    ∃ o, filter_plugin_reconfigure_fn py handle config w = some o ∧
      (ReconfigureNotCalled py handle w → o.world.pyObjs handle = w.pyObjs handle) ∧
      (¬ ReconfigureNotCalled py handle w →
        o.world.pyObjs handle = (pluginEdits py.onHandle handle w).pyObjs handle) ∧
      ((∀ d, w.pyObjs handle = .dict d → py.onHandle d = d) →
        o.world.pyObjs handle = w.pyObjs handle ∧
        (o.world.pyObjs handle).entries = (w.pyObjs handle).entries) := by
  obtain ⟨o, ho, -, hw⟩ := reconfigure_cases py handle config w hlive
  refine ⟨o, ho, ?_⟩
  rcases hw with ⟨hn, hw⟩ | ⟨hc, -, hw⟩ | ⟨hok, -⟩
  · rw [hw]
    exact ⟨fun _ => rfl, fun hc => absurd hn hc, fun _ => ⟨rfl, rfl⟩⟩
  · rw [hw]
    refine ⟨fun hn => absurd hn hc, fun _ => rfl, fun hfix => ?_⟩
    have hsame := pluginEdits_fixed py.onHandle handle w hfix
    exact ⟨hsame, by rw [hsame]⟩
  · exact absurd hfail hok

/-- Witness of C5 (amended): the interpreted call stores `"z": 26` in the
registered handle `5` and raises. -/
theorem reconfigure_failure_writes_nothing_witness :
    oneHandleWorld.HandleLive 5 ∧ ReconfigureFails ⟨9, true, 0, storeZ⟩ 5 oneHandleWorld ∧
    ∃ o, filter_plugin_reconfigure_fn ⟨9, true, 0, storeZ⟩ 5 "cfg" oneHandleWorld = some o ∧
      (ReconfigureNotCalled ⟨9, true, 0, storeZ⟩ 5 oneHandleWorld →
        o.world.pyObjs 5 = oneHandleWorld.pyObjs 5) ∧
      (¬ ReconfigureNotCalled ⟨9, true, 0, storeZ⟩ 5 oneHandleWorld →
        o.world.pyObjs 5 = (pluginEdits storeZ 5 oneHandleWorld).pyObjs 5) ∧
      ((∀ d, oneHandleWorld.pyObjs 5 = .dict d → storeZ d = d) →
        o.world.pyObjs 5 = oneHandleWorld.pyObjs 5 ∧
        (o.world.pyObjs 5).entries = (oneHandleWorld.pyObjs 5).entries) :=
  ⟨oneHandleWorld_live 5, by simp [ReconfigureFails],
    reconfigure_failure_writes_nothing ⟨9, true, 0, storeZ⟩ 5 "cfg" oneHandleWorld
      (oneHandleWorld_live 5) (by simp [ReconfigureFails])⟩

/-- C6: `filter_plugin_reconfigure_fn` returns, and whatever its outcome it
leaves `pythonHandles`, `pythonModules`, the module records and the allocator
as they were and changes no Python object other than the handle. -/
theorem reconfigure_frame (py : ReconfigureEnv) (handle : PyRef) (config : String)
    (w : World) (hlive : w.HandleLive handle) :
    ∃ o, filter_plugin_reconfigure_fn py handle config w = some o ∧
      o.world.pythonHandles = w.pythonHandles ∧
      o.world.pythonModules = w.pythonModules ∧
      o.world.mods = w.mods ∧
      o.world.nextMod = w.nextMod ∧
      ∀ h2, h2 ≠ handle → o.world.pyObjs h2 = w.pyObjs h2 := by
  obtain ⟨o, ho, -, hw⟩ := reconfigure_cases py handle config w hlive
  refine ⟨o, ho, ?_⟩
  obtain ⟨e1, e2, e3, e4, e5⟩ := pluginEdits_frame py.onHandle handle w
  rcases hw with ⟨-, hw⟩ | ⟨-, -, hw⟩ | ⟨-, hw⟩
  · rw [hw]; exact ⟨rfl, rfl, rfl, rfl, fun _ _ => rfl⟩
  · rw [hw]; exact ⟨e1, e2, e3, e4, e5⟩
  · rw [hw]
    obtain ⟨u1, u2, u3, u4, u5⟩ := PyDict_Update_frame handle py.pReturn
      (PyDict_Clear handle (pluginEdits py.onHandle handle w))
    obtain ⟨c1, c2, c3, c4, c5⟩ := PyDict_Clear_frame handle
      (pluginEdits py.onHandle handle w)
    exact ⟨(u1.trans c1).trans e1, (u2.trans c2).trans e2, (u3.trans c3).trans e3,
      (u4.trans c4).trans e4,
      fun h2 hne => ((u5 h2 hne).trans (c5 h2 hne)).trans (e5 h2 hne)⟩

/-- Witness of C6: a successful reconfiguration of the registered handle `5`
with the dictionary `6`, by plugin code that also edits the handle. -/
theorem reconfigure_frame_witness :
    oneHandleWorld.HandleLive 5 ∧
    ∃ o, filter_plugin_reconfigure_fn ⟨9, true, 6, storeZ⟩ 5 "cfg" oneHandleWorld = some o ∧
      o.world.pythonHandles = oneHandleWorld.pythonHandles ∧
      o.world.pythonModules = oneHandleWorld.pythonModules ∧
      o.world.mods = oneHandleWorld.mods ∧
      o.world.nextMod = oneHandleWorld.nextMod ∧
      ∀ h2, h2 ≠ 5 → o.world.pyObjs h2 = oneHandleWorld.pyObjs h2 :=
  ⟨oneHandleWorld_live 5,
    reconfigure_frame ⟨9, true, 6, storeZ⟩ 5 "cfg" oneHandleWorld (oneHandleWorld_live 5)⟩

theorem update_after_clear (h r : PyRef) (w : World) (hd1 : (w.pyObjs h).isDict = true)
    (hd2 : (w.pyObjs r).isDict = true) (hne : r ≠ h) :
    ((PyDict_Update h r (PyDict_Clear h w)).pyObjs h).isDict = true ∧
    ((PyDict_Update h r (PyDict_Clear h w)).pyObjs h).entries = (w.pyObjs r).entries := by
  cases hh : w.pyObjs h with
  | other => simp [hh, PyVal.isDict] at hd1
  | dict dh =>
    cases hr : w.pyObjs r with
    | other => simp [hr, PyVal.isDict] at hd2
    | dict dr =>
      simp only [PyDict_Update, PyDict_Clear, hh, hne, if_true, if_false, hr, PyVal.isDict,
        PyVal.entries, true_and]
      funext k
      cases dr k <;> rfl

theorem reconfigure_distinct_result (py : ReconfigureEnv) (handle : PyRef) (config : String)
    (w : World) (hlive : w.HandleLive handle) (hok : ¬ ReconfigureFails py handle w)
    (hne : py.pReturn ≠ handle) :
    ∃ o, filter_plugin_reconfigure_fn py handle config w = some o ∧
      (o.world.pyObjs handle).isDict = true ∧
      (o.world.pyObjs handle).entries = (w.pyObjs py.pReturn).entries := by
  obtain ⟨o, ho, -, hw⟩ := reconfigure_cases py handle config w hlive
  refine ⟨o, ho, ?_⟩
  rcases hw with ⟨hn, -⟩ | ⟨-, hf, -⟩ | ⟨-, hw⟩
  · exact absurd (reconfigureFails_of_notCalled py handle w hn) hok
  · exact absurd hf hok
  · rw [hw]
    simp only [ReconfigureFails, not_or] at hok
    obtain ⟨-, -, -, -, -, -, -, h1, h2⟩ := hok
    have hres := update_after_clear handle py.pReturn (pluginEdits py.onHandle handle w)
      (by rw [pluginEdits_isDict]; simpa using h2)
      (by rw [pluginEdits_isDict]; simpa using h1) hne
    rw [(pluginEdits_frame py.onHandle handle w).2.2.2.2 py.pReturn hne] at hres
    exact hres

/-- C4: the result of `plugin_reconfigure` may be the handle object itself;
`filter_plugin_reconfigure_fn` then empties the handle, whose entry `"a"` is
lost although the returned mapping had it. -/
theorem reconfigure_same_object_empties_handle :
    (oneHandleWorld.pyObjs 5).isDict = true ∧
    (oneHandleWorld.pyObjs 5).entries "a" = some 1 ∧
    ∃ o, filter_plugin_reconfigure_fn ⟨9, true, 5, id⟩ 5 "cfg" oneHandleWorld = some o ∧
      (o.world.pyObjs 5).entries "a" = none := by
  refine ⟨by decide, by decide, ?_⟩
  exact ⟨_, rfl, by decide⟩

/-! ## Ingestion -/

theorem ingest_cases (py : IngestEnv) (handle : PyRef) (data : ReadingSet) (w : World)
    (hlive : w.HandleLive handle) :
    ∃ o, filter_plugin_ingest_fn py handle data w = some o ∧
      (o.world = w ∨ o.world = pluginEdits py.onHandle handle w) ∧
      LockBalanced o.events := by
  unfold filter_plugin_ingest_fn
  by_cases h0 : handle = 0
  · simp only [h0, if_true]
    exact ⟨_, rfl, Or.inl rfl, lockBalanced_nil⟩
  simp only [h0, if_false]
  cases hH : w.pythonHandles with
  | none => exact ⟨_, rfl, Or.inl rfl, lockBalanced_nil⟩
  | some hs =>
    simp only []
    cases hf : mapFind handle hs with
    | none => exact ⟨_, rfl, Or.inl rfl, lockBalanced_findHandle _⟩
    | some mp =>
      simp only []
      by_cases hmp : mp = 0
      · simp only [hmp, if_true]
        exact ⟨_, rfl, Or.inl rfl, lockBalanced_findHandle _⟩
      obtain ⟨m, hm⟩ := hlive hs mp hH hf hmp
      simp only [hmp, if_false, hm]
      by_cases hc : py.pFunc = 0 ∨ py.callable = false
      · simp only [hc, if_true]
        refine ⟨_, rfl, Or.inl rfl, ?_⟩
        simp [LockBalanced, lockDepth, acquisitions, releases, Event.isRelease]
      · simp only [hc, if_false]
        refine ⟨_, rfl, Or.inr rfl, ?_⟩
        constructor
        · simp [lockDepth, lockDepth_trackAssets]
        · simp [acquisitions, releases, Event.isRelease, count_trackAssets,
            countP_isRelease_trackAssets, List.count_cons]

/-- C1: `filter_plugin_ingest_fn` deletes the input reading set once when it
reaches the interpreted call, also when that call raises; on the early exits
(`NULL` handle, unregistered handle, `plugin_ingest` missing or not callable)
it returns without deleting it. -/
theorem ingest_early_exits_keep_batch (py : IngestEnv) (data : ReadingSet) :
    (∃ o, filter_plugin_ingest_fn py 0 data oneHandleWorld = some o ∧
      o.events.count .deleteReadingSet = 0) ∧
    (∃ o, filter_plugin_ingest_fn py 9 data oneHandleWorld = some o ∧
      o.events.count .deleteReadingSet = 0) ∧
    (∃ o, filter_plugin_ingest_fn ⟨0, py.callable, py.atr, py.pReturn, py.onHandle⟩ 5 data
        oneHandleWorld
        = some o ∧ o.events.count .deleteReadingSet = 0) ∧
    (∃ o, filter_plugin_ingest_fn ⟨py.pFunc, false, py.atr, py.pReturn, py.onHandle⟩ 5 data
        oneHandleWorld
        = some o ∧ o.events.count .deleteReadingSet = 0) ∧
    (∃ o, filter_plugin_ingest_fn ⟨9, true, py.atr, 0, py.onHandle⟩ 5 data oneHandleWorld
        = some o ∧
      o.events.count .deleteReadingSet = 1) := by
  refine ⟨⟨_, rfl, rfl⟩, ⟨_, rfl, rfl⟩, ⟨_, rfl, rfl⟩, ?_, ?_⟩
  · refine ⟨⟨oneHandleWorld,
      [.findHandle 5, .gilEnsure, .getAttr 100 "plugin_ingest", .gilRelease], ()⟩, ?_, rfl⟩
    simp [filter_plugin_ingest_fn, oneHandleWorld, mapFind, fooRecord]
  · refine ⟨⟨pluginEdits py.onHandle 5 oneHandleWorld,
      [.findHandle 5, .gilEnsure, .getAttr 100 "plugin_ingest"]
        ++ trackAssets py.atr "" data.readings
        ++ [.callIngest 5, .deleteReadingSet, .gilRelease], ()⟩, ?_, ?_⟩
    · simp [filter_plugin_ingest_fn, oneHandleWorld, mapFind, fooRecord]
    · simp [count_trackAssets, List.count_cons]

/-- C9, as stated, fails: with no asset tracker instance in the process
(`AssetTracker::getAssetTracker()` is `NULL`) a registered handle with a
callable `plugin_ingest` ingests a batch without emitting any tracking event. -/
theorem ingest_tracks_every_reading_fails :
    ¬ ∀ (py : IngestEnv) (handle : PyRef) (data : ReadingSet) (w : World)
        (hs : List (PyRef × ModPtr)) (mp : ModPtr) (m : PythonModule),
        handle ≠ 0 → w.pythonHandles = some hs → mapFind handle hs = some mp → mp ≠ 0 →
        w.mods mp = some m → py.pFunc ≠ 0 → py.callable = true →
        ∃ o, filter_plugin_ingest_fn py handle data w = some o ∧
          o.events.filter Event.isAssetTrack
            = data.readings.map
                (fun r => Event.assetTrack m.m_categoryName r.assetName "Filter") := by
  intro h
  obtain ⟨o, ho, hev⟩ := h ⟨9, true, false, 7, id⟩ 5 twoReadings oneHandleWorld [(5, 1)] 1
    fooRecord
    (by decide) rfl (by decide) (by decide) (by simp [oneHandleWorld]) (by decide) rfl
  have hrun : (filter_plugin_ingest_fn ⟨9, true, false, 7, id⟩ 5 twoReadings
      oneHandleWorld).map (fun o => o.events)
      = some [.findHandle 5, .gilEnsure, .getAttr 100 "plugin_ingest",
              .callIngest 5, .deleteReadingSet, .gilRelease] := rfl
  rw [ho] at hrun
  simp only [Option.map_some', Option.some.injEq] at hrun
  rw [hrun] at hev
  simp [Event.isAssetTrack, twoReadings] at hev

/-- C9, amended: when the process has an asset tracker instance, ingesting a
batch on a registered handle whose module has a callable `plugin_ingest`
emits one tracking event per reading, in batch order, keyed by the module's
category name, the reading's asset name and `"Filter"`; they all come before
the interpreted call, whatever that call then returns. -/
theorem ingest_tracks_every_reading (py : IngestEnv) (handle : PyRef) (data : ReadingSet)
    (w : World) (hs : List (PyRef × ModPtr)) (mp : ModPtr) (m : PythonModule)
    (h0 : handle ≠ 0) (hH : w.pythonHandles = some hs) (hf : mapFind handle hs = some mp)
    (hmp : mp ≠ 0) (hm : w.mods mp = some m) (hp : py.pFunc ≠ 0) (hc : py.callable = true)
    (hatr : py.atr = true) :
    ∃ o, filter_plugin_ingest_fn py handle data w = some o ∧
      o.events = [.findHandle handle, .gilEnsure, .getAttr m.m_module "plugin_ingest"]
        ++ data.readings.map
            (fun r => Event.assetTrack m.m_categoryName r.assetName "Filter")
        ++ [.callIngest handle, .deleteReadingSet, .gilRelease] ∧
      o.events.filter Event.isAssetTrack
        = data.readings.map
            (fun r => Event.assetTrack m.m_categoryName r.assetName "Filter") ∧
      (o.events.filter Event.isAssetTrack).length = data.readings.length := by
  have hfilter : ∀ rs : List Reading,
      (rs.map (fun r => Event.assetTrack m.m_categoryName r.assetName "Filter")).filter
        Event.isAssetTrack
        = rs.map (fun r => Event.assetTrack m.m_categoryName r.assetName "Filter") := by
    intro rs
    induction rs with
    | nil => rfl
    | cons r rs ih => simp [Event.isAssetTrack, ih]
  refine ⟨⟨pluginEdits py.onHandle handle w,
      [.findHandle handle, .gilEnsure, .getAttr m.m_module "plugin_ingest"]
        ++ data.readings.map
            (fun r => Event.assetTrack m.m_categoryName r.assetName "Filter")
        ++ [.callIngest handle, .deleteReadingSet, .gilRelease], ()⟩, ?_, rfl, ?_, ?_⟩
  · simp [filter_plugin_ingest_fn, h0, hH, hf, hmp, hm, hp, hc, trackAssets_eq, hatr]
  · simp [List.filter_append, hfilter, Event.isAssetTrack]
  · simp [List.filter_append, hfilter, Event.isAssetTrack]

/-- Witness of C9 (amended): two readings on the registered handle `5`. -/
theorem ingest_tracks_every_reading_witness :
    ∃ o, filter_plugin_ingest_fn ⟨9, true, true, 0, storeZ⟩ 5 twoReadings oneHandleWorld
        = some o ∧
      o.events = [.findHandle 5, .gilEnsure, .getAttr fooRecord.m_module "plugin_ingest"]
        ++ twoReadings.readings.map
            (fun r => Event.assetTrack fooRecord.m_categoryName r.assetName "Filter")
        ++ [.callIngest 5, .deleteReadingSet, .gilRelease] ∧
      o.events.filter Event.isAssetTrack
        = twoReadings.readings.map
            (fun r => Event.assetTrack fooRecord.m_categoryName r.assetName "Filter") ∧
      (o.events.filter Event.isAssetTrack).length = twoReadings.readings.length :=
  ingest_tracks_every_reading ⟨9, true, true, 0, storeZ⟩ 5 twoReadings oneHandleWorld
    [(5, 1)] 1 fooRecord (by decide) rfl (by decide) (by decide) (by simp [oneHandleWorld]) (by decide)
    rfl rfl

/-! ## Lock depth of composed step lists -/

theorem lockDepth_append (a b : List Event) (d : Nat) :
    lockDepth d (a ++ b) = (lockDepth d a).bind (fun d1 => lockDepth d1 b) := by
  induction a generalizing d with
  | nil => simp [lockDepth]
  | cons e a ih => cases e <;> cases d <;> simp [lockDepth, ih]

theorem lockBalanced_of_held (evs mid : List Event) (i : Interp)
    (hd : lockDepth 0 evs = some 1) (ha : acquisitions evs = 1) (hr : releases evs = 0)
    (hmid : lockDepth 1 mid = some 1) (hma : acquisitions mid = 0)
    (hmr : releases mid = 0) :
    LockBalanced (evs ++ mid ++ [releaseLocks i]) := by
  constructor
  · rw [lockDepth_append, lockDepth_append, hd]
    simp only [Option.some_bind, hmid]
    unfold releaseLocks
    split <;> simp [lockDepth]
  · simp only [acquisitions, releases] at *
    simp only [List.count_append, List.countP_append, ha, hr, hma, hmr]
    unfold releaseLocks
    split <;> simp [Event.isRelease, List.count_cons]

/-! ## Initialisation: the registration step -/

theorem initCallAndRegister_inserted (py : InitEnv) (config : ConfigCategory)
    (module : ModPtr) (i : Interp) (evs : List Event) (w : World) (m : PythonModule)
    (hs : List (PyRef × ModPtr)) (hm : w.mods module = some m)
    (hH : w.pythonHandles = some hs) (hfree : mapFind py.pReturn hs = none) :
    initCallAndRegister py config module i evs w
      = some ⟨{ w with pythonHandles := some (mapPlace py.pReturn module hs) },
              evs ++ [.callInit m.m_module config.itemsJSON,
                      .insertHandle py.pReturn module true] ++ [releaseLocks i],
              py.pReturn⟩ := by
  simp [initCallAndRegister, hm, hH, mapInsert, hfree]

theorem initCallAndRegister_collision (py : InitEnv) (config : ConfigCategory)
    (module : ModPtr) (i : Interp) (evs : List Event) (w : World) (m : PythonModule)
    (hs : List (PyRef × ModPtr)) (x : ModPtr) (hm : w.mods module = some m)
    (hH : w.pythonHandles = some hs) (hused : mapFind py.pReturn hs = some x) :
    initCallAndRegister py config module i evs w
      = some ⟨{ w with mods := fun p => if p = module then none else w.mods p },
              evs ++ [.callInit m.m_module config.itemsJSON,
                      .insertHandle py.pReturn module false, .pyClear m.m_module,
                      .deleteModule module] ++ [releaseLocks i],
              0⟩ := by
  simp [initCallAndRegister, hm, hH, mapInsert, hused]

theorem initCallAndRegister_balanced (py : InitEnv) (config : ConfigCategory)
    (module : ModPtr) (i : Interp) (evs : List Event) (w : World) (m : PythonModule)
    (hs : List (PyRef × ModPtr)) (hm : w.mods module = some m)
    (hH : w.pythonHandles = some hs)
    (hd : lockDepth 0 evs = some 1) (ha : acquisitions evs = 1) (hr : releases evs = 0) :
    ∃ o, initCallAndRegister py config module i evs w = some o ∧ LockBalanced o.events := by
  cases hf : mapFind py.pReturn hs with
  | none =>
    rw [initCallAndRegister_inserted py config module i evs w m hs hm hH hf]
    exact ⟨_, rfl, lockBalanced_of_held evs _ i hd ha hr (by simp [lockDepth])
      (by simp [acquisitions, List.count_cons]) (by simp [releases, Event.isRelease])⟩
  | some x =>
    rw [initCallAndRegister_collision py config module i evs w m hs x hm hH hf]
    exact ⟨_, rfl, lockBalanced_of_held evs _ i hd ha hr (by simp [lockDepth])
      (by simp [acquisitions, List.count_cons]) (by simp [releases, Event.isRelease])⟩

theorem scanHandles_total (mods : ModPtr → Option PythonModule) (pName : String)
    (hs : List (PyRef × ModPtr)) (hlive : ∀ e ∈ hs, ∃ m, mods e.2 = some m) :
    ∃ r, scanHandles mods pName hs = some r := by
  induction hs with
  | nil => exact ⟨none, rfl⟩
  | cons e rest ih =>
    obtain ⟨h, mp⟩ := e
    obtain ⟨m, hm⟩ := hlive (h, mp) (List.mem_cons_self _ _)
    simp only [scanHandles, hm]
    by_cases hn : m.m_name = pName
    · simp [hn]
    · simp only [hn, if_false]
      exact ih (fun e he => hlive e (List.mem_cons_of_mem _ he))

theorem initLoad_balanced (py : InitEnv) (config : ConfigCategory) (b : Bool)
    (evs : List Event) (w : World) (hs : List (PyRef × ModPtr))
    (hH : w.pythonHandles = some hs)
    (hd : lockDepth 0 evs = some 0) (ha : acquisitions evs = 0) (hr : releases evs = 0) :
    ∃ o, initLoad py config b evs w = some o ∧ LockBalanced o.events := by
  unfold initLoad
  simp only [acquisitions, releases] at ha hr
  by_cases hi : py.newInterp = 0
  · simp only [hi, if_true]
    refine ⟨_, rfl, ?_, ?_⟩
    · simp [lockDepth_append, hd, lockDepth]
    · simp [acquisitions, releases, ha, hr, List.count_cons, Event.isRelease]
  simp only [hi, if_false]
  by_cases ho : py.newObj = 0
  · simp only [ho, if_true]
    refine ⟨_, rfl, ?_, ?_⟩
    · simp [lockDepth_append, hd, lockDepth]
    · simp [acquisitions, releases, ha, hr, List.count_cons, Event.isRelease]
  simp only [ho, if_false]
  refine initCallAndRegister_balanced py config _ _ _ _ _ hs (if_pos rfl) hH ?_ ?_ ?_
  · simp [lockDepth_append, hd, lockDepth]
  · simp [acquisitions, ha, List.count_cons]
  · simp [releases, hr, Event.isRelease]

theorem init_balanced (py : InitEnv) (config : ConfigCategory) (w : World)
    (hsafe : w.InitSafe config.plugin) :
    ∃ o, filter_plugin_init_fn py config w = some o ∧ LockBalanced o.events := by
  unfold filter_plugin_init_fn
  cases hM : w.pythonModules with
  | none => exact ⟨_, rfl, lockBalanced_nil⟩
  | some pms =>
    obtain ⟨hs, hH, hlive⟩ := hsafe.1 (by simp [hM])
    obtain ⟨sr, hsr⟩ := scanHandles_total w.mods config.plugin hs hlive
    simp only [hH, hsr]
    cases sr with
    | some b =>
      exact initLoad_balanced py config b _ w hs hH (by simp [lockDepth])
        (by simp [acquisitions, List.count_cons]) (by simp [releases, Event.isRelease])
    | none =>
      simp only []
      cases hf : mapFind config.plugin pms with
      | none =>
        exact initLoad_balanced py config false _ w hs hH (by simp [lockDepth])
          (by simp [acquisitions, List.count_cons]) (by simp [releases, Event.isRelease])
      | some mp =>
        simp only []
        by_cases hmp : mp = 0
        · simp only [hmp, if_true]
          refine ⟨_, rfl, ?_⟩
          simp [LockBalanced, lockDepth, acquisitions, releases, Event.isRelease,
            List.count_cons]
        obtain ⟨m, hm⟩ := hsafe.2 pms mp hM hf hmp
        simp only [hmp, if_false, hm]
        by_cases hz : m.m_module = 0
        · simp only [hz, if_true]
          refine ⟨_, rfl, ?_⟩
          simp [LockBalanced, lockDepth, acquisitions, releases, Event.isRelease,
            List.count_cons]
        simp only [hz, if_false]
        unfold initReuse
        refine initCallAndRegister_balanced py config mp 0 _ _ _ hs (if_pos rfl) hH ?_ ?_ ?_
        · simp [lockDepth]
        · simp [acquisitions, List.count_cons]
        · simp [releases, Event.isRelease]

/-- C8: each of `filter_plugin_init_fn`, `filter_plugin_ingest_fn` and
`filter_plugin_reconfigure_fn` returns, on every exit path, with the lock
steps balanced: each release finds the lock held, there are as many releases
as acquisitions, and the lock depth at return is that at entry. -/
theorem lock_released_on_every_exit (w : World) (handle : PyRef)
    (pyInit : InitEnv) (config : ConfigCategory)
    (pyIngest : IngestEnv) (data : ReadingSet)
    (pyReconf : ReconfigureEnv) (text : String)
    (hlive : w.HandleLive handle) (hsafe : w.InitSafe config.plugin) :
    (∃ o, filter_plugin_init_fn pyInit config w = some o ∧ LockBalanced o.events) ∧
    (∃ o, filter_plugin_ingest_fn pyIngest handle data w = some o ∧
      LockBalanced o.events) ∧
    (∃ o, filter_plugin_reconfigure_fn pyReconf handle text w = some o ∧
      LockBalanced o.events) := by
  refine ⟨init_balanced pyInit config w hsafe, ?_, ?_⟩
  · obtain ⟨o, ho, -, hb⟩ := ingest_cases pyIngest handle data w hlive
    exact ⟨o, ho, hb⟩
  · obtain ⟨o, ho, hb, -⟩ := reconfigure_cases pyReconf handle text w hlive
    exact ⟨o, ho, hb⟩

/-! ## Sample states are well formed -/

theorem World.WF.initSafe {w : World} (hwf : w.WF) (pName : String) : w.InitSafe pName := by
  obtain ⟨⟨hs, hH, hlive⟩, ⟨pms, hM, hreg⟩, -, -⟩ := hwf
  refine ⟨fun _ => ⟨hs, hH, hlive⟩, ?_⟩
  intro pms1 mp hM1 hf hmp
  rw [hM] at hM1
  cases hM1
  obtain ⟨m, hm, -⟩ := hreg pName mp hf hmp
  exact ⟨m, hm⟩

theorem emptyWorld_wf : emptyWorld.WF := by
  refine ⟨⟨[], rfl, by simp⟩, ⟨[], rfl, by simp [mapFind]⟩, ?_, by decide⟩
  intro p m hm
  simp [emptyWorld] at hm

theorem loadedWorld_wf : loadedWorld.WF := by
  refine ⟨⟨[], rfl, by simp⟩, ⟨[("foo", 1)], rfl, ?_⟩, ?_, by decide⟩
  · intro name mp hf hmp
    by_cases hn : name = "foo"
    · simp only [mapFind, hn, if_true, Option.some.injEq] at hf
      subst hf
      exact ⟨fooRecord, by simp [loadedWorld], by simp [fooRecord, hn]⟩
    · simp [mapFind, hn] at hf
  · intro p m hm
    by_cases hp : p = 1
    · simp [hp, loadedWorld]
    · simp [loadedWorld, hp] at hm

theorem oneHandleWorld_wf : oneHandleWorld.WF := by
  refine ⟨⟨[(5, 1)], rfl, ?_⟩, ⟨[("foo", 1)], rfl, ?_⟩, ?_, by decide⟩
  · intro e he
    simp only [List.mem_singleton] at he
    subst he
    exact ⟨fooRecord, by simp [oneHandleWorld]⟩
  · intro name mp hf hmp
    by_cases hn : name = "foo"
    · simp only [mapFind, hn, if_true, Option.some.injEq] at hf
      subst hf
      exact ⟨fooRecord, by simp [oneHandleWorld], by simp [fooRecord, hn]⟩
    · simp [mapFind, hn] at hf
  · intro p m hm
    by_cases hp : p = 1
    · simp [hp, oneHandleWorld]
    · simp [oneHandleWorld, hp] at hm

/-- Witness of C8: the three entry points on a state with one registered
handle of the plugin `foo`. -/
theorem lock_released_on_every_exit_witness :
    oneHandleWorld.HandleLive 5 ∧ oneHandleWorld.InitSafe fooConfig.plugin ∧
    (∃ o, filter_plugin_init_fn ⟨3, 200, 7⟩ fooConfig oneHandleWorld = some o ∧
      LockBalanced o.events) ∧
    (∃ o, filter_plugin_ingest_fn ⟨9, true, true, 0, storeZ⟩ 5 twoReadings oneHandleWorld
        = some o ∧ LockBalanced o.events) ∧
    (∃ o, filter_plugin_reconfigure_fn ⟨9, true, 6, storeZ⟩ 5 "cfg" oneHandleWorld = some o ∧
      LockBalanced o.events) :=
  ⟨oneHandleWorld_live 5, oneHandleWorld_wf.initSafe _,
    lock_released_on_every_exit oneHandleWorld 5 ⟨3, 200, 7⟩ fooConfig
      ⟨9, true, true, 0, storeZ⟩ twoReadings ⟨9, true, 6, storeZ⟩ "cfg" (oneHandleWorld_live 5) (oneHandleWorld_wf.initSafe _)⟩

/-! ## Initialisation: single calls -/

/-- C3, as stated, fails: a first `filter_plugin_init_fn` on empty registries,
with context creation, import and `plugin_init` succeeding, does not leave
an entry for the plugin in `pythonModules`. -/
theorem init_fresh_load_fills_module_registry_fails :
    ¬ ∀ (py : InitEnv) (config : ConfigCategory) (w : World),
        w.pythonHandles = some [] → w.pythonModules = some [] →
        py.newInterp ≠ 0 → py.newObj ≠ 0 → py.pReturn ≠ 0 →
        ∃ o mp, filter_plugin_init_fn py config w = some o ∧ o.ret ≠ 0 ∧
          o.world.pythonModules = some [(config.plugin, mp)] ∧
          o.world.pythonHandles = some [(o.ret, mp)] := by
  intro h
  obtain ⟨o, mp, ho, -, hM, -⟩ := h ⟨3, 200, 7⟩ fooConfig emptyWorld rfl rfl
    (by decide) (by decide) (by decide)
  have hrun : filter_plugin_init_fn ⟨3, 200, 7⟩ fooConfig emptyWorld
      = some ⟨{ emptyWorld with
                  pythonHandles := some [(7, 1)],
                  mods := fun p => if p = 1 then
                    some ⟨200, false, "foo", PLUGIN_TYPE_FILTER, 3, "cat1"⟩ else none,
                  nextMod := 2 },
              [.scanHandles, .findModule "foo", .gilEnsure, .newInterpreter 3,
               .importModule "filter_shim" "foo", .newModule 1, .callInit 200 "{}",
               .insertHandle 7 1 true, .releaseThread 3], 7⟩ := by
    rfl
  rw [hrun] at ho
  have ho2 := (Option.some.inj ho).symm
  subst ho2
  simp [emptyWorld] at hM

/-- C3, amended: a first `filter_plugin_init_fn` for plugin `P` on empty
registries, with context creation, import and `plugin_init` succeeding,
creates one interpreter context, imports the shim once and returns the
non-null result `H1` of `plugin_init`; `pythonModules` is left empty, and
`pythonHandles` is exactly `H1` mapped to a newly built module record named
`P` that carries the configuration's category name. -/
theorem init_fresh_load (py : InitEnv) (config : ConfigCategory) (w : World)
    (hH : w.pythonHandles = some []) (hM : w.pythonModules = some [])
    (hi : py.newInterp ≠ 0) (hn : py.newObj ≠ 0) (hr : py.pReturn ≠ 0) :
    ∃ o, filter_plugin_init_fn py config w = some o ∧
      o.ret = py.pReturn ∧ o.ret ≠ 0 ∧
      o.world.pythonModules = some [] ∧
      o.world.pythonHandles = some [(o.ret, w.nextMod)] ∧
      o.world.mods w.nextMod
        = some { m_module := py.newObj, m_init := false, m_name := config.plugin,
                 m_type := PLUGIN_TYPE_FILTER, m_tState := py.newInterp,
                 m_categoryName := config.name } ∧
      o.events.countP Event.isNewInterpreter = 1 ∧
      o.events.countP Event.isImport = 1 := by
  have hrun : filter_plugin_init_fn py config w
      = some ⟨{ w with
                  pythonHandles := some [(py.pReturn, w.nextMod)],
                  mods := fun p => if p = w.nextMod then
                    some { m_module := py.newObj, m_init := false, m_name := config.plugin,
                           m_type := PLUGIN_TYPE_FILTER, m_tState := py.newInterp,
                           m_categoryName := config.name } else w.mods p,
                  nextMod := w.nextMod + 1 },
              [.scanHandles, .findModule config.plugin, .gilEnsure,
               .newInterpreter py.newInterp,
               .importModule (PLUGIN_TYPE_FILTER ++ SHIM_SCRIPT_POSTFIX) config.plugin,
               .newModule w.nextMod, .callInit py.newObj config.itemsJSON,
               .insertHandle py.pReturn w.nextMod true, .releaseThread py.newInterp],
              py.pReturn⟩ := by
    simp [filter_plugin_init_fn, hH, hM, scanHandles, mapFind, initLoad, hi, hn,
      initCallAndRegister, mapInsert, mapPlace, releaseLocks]
  refine ⟨_, hrun, rfl, hr, hM, rfl, by simp, ?_, ?_⟩
  · simp [List.countP_cons, Event.isNewInterpreter, hi]
  · simp [List.countP_cons, Event.isImport]

/-- Witness of C3 (amended): the plugin `foo` on empty registries. -/
theorem init_fresh_load_witness :
    ∃ o, filter_plugin_init_fn ⟨3, 200, 7⟩ fooConfig emptyWorld = some o ∧
      o.ret = 7 ∧ o.ret ≠ 0 ∧
      o.world.pythonModules = some [] ∧
      o.world.pythonHandles = some [(o.ret, 1)] ∧
      o.world.mods 1
        = some { m_module := 200, m_init := false, m_name := "foo",
                 m_type := PLUGIN_TYPE_FILTER, m_tState := 3,
                 m_categoryName := "cat1" } ∧
      o.events.countP Event.isNewInterpreter = 1 ∧
      o.events.countP Event.isImport = 1 :=
  init_fresh_load ⟨3, 200, 7⟩ fooConfig emptyWorld rfl rfl (by decide) (by decide) (by decide)

/-- C10: when `plugin_init` raises (`pReturn` is `NULL`)
`filter_plugin_init_fn` returns `NULL`, yet it has inserted the `NULL` key,
mapped to the module record, into `pythonHandles`. -/
theorem init_error_registers_null_handle :
    loadedWorld.pythonHandles = some [] ∧
    ∃ o, filter_plugin_init_fn ⟨3, 200, 0⟩ fooConfig loadedWorld = some o ∧
      o.ret = 0 ∧ o.world.pythonHandles = some [(0, 1)] ∧
      o.events = [.scanHandles, .findModule "foo", .gilEnsure, .callInit 100 "{}",
                  .insertHandle 0 1 true, .gilRelease] :=
  ⟨rfl, _, rfl, rfl, rfl, rfl⟩

/-! ## Facts about the handle map -/

theorem mapFind_mapPlace {β : Type} (k h : Nat) (v : β) (hs : List (Nat × β))
    (hk : mapFind k hs = none) :
    mapFind h (mapPlace k v hs) = if h = k then some v else mapFind h hs := by
  induction hs with
  | nil => simp [mapPlace, mapFind]
  | cons e rest ih =>
    obtain ⟨k1, v1⟩ := e
    have hne : k ≠ k1 := by
      intro heq
      simp [mapFind, heq] at hk
    have hrest : mapFind k rest = none := by
      simpa [mapFind, hne] using hk
    unfold mapPlace
    by_cases hlt : k < k1
    · simp only [hlt, if_true]
      by_cases hh : h = k
      · simp [mapFind, hh]
      · simp [mapFind, hh]
    · simp only [hlt, if_false]
      by_cases hh : h = k
      · subst hh
        simp [mapFind, hne, ih hrest]
      · by_cases hh1 : h = k1
        · simp [mapFind, hh1, hne.symm]
        · simp [mapFind, hh1, hh, ih hrest]

theorem mem_mapPlace {β : Type} (k : Nat) (v : β) (hs : List (Nat × β)) (e : Nat × β) :
    e ∈ mapPlace k v hs ↔ e = (k, v) ∨ e ∈ hs := by
  induction hs with
  | nil => simp [mapPlace]
  | cons e1 rest ih =>
    obtain ⟨k1, v1⟩ := e1
    unfold mapPlace
    by_cases hlt : k < k1
    · simp [hlt]
    · simp only [hlt, if_false, List.mem_cons, ih]
      tauto

theorem scanHandles_hit (mods : ModPtr → Option PythonModule) (pName : String)
    (hs : List (PyRef × ModPtr)) (hlive : ∀ e ∈ hs, ∃ m, mods e.2 = some m)
    (hhit : ∃ e ∈ hs, ∃ m, mods e.2 = some m ∧ m.m_name = pName) :
    ∃ b, scanHandles mods pName hs = some (some b) := by
  induction hs with
  | nil =>
    obtain ⟨e, he, -⟩ := hhit
    simp at he
  | cons e rest ih =>
    obtain ⟨h, mp⟩ := e
    obtain ⟨m, hm⟩ := hlive (h, mp) (List.mem_cons_self _ _)
    simp only [scanHandles, hm]
    by_cases hn : m.m_name = pName
    · simp [hn]
    · simp only [hn, if_false]
      apply ih (fun e he => hlive e (List.mem_cons_of_mem _ he))
      obtain ⟨e, he, m1, hm1, hn1⟩ := hhit
      rcases List.mem_cons.1 he with heq | hmem
      · subst heq
        rw [hm] at hm1
        cases hm1
        exact absurd hn1 hn
      · exact ⟨e, hmem, m1, hm1, hn1⟩

/-! ## Initialisation: a successful call -/

theorem initLoad_success (py : InitEnv) (config : ConfigCategory) (b : Bool)
    (evs : List Event) (w : World) (o : Outcome PyRef) (hs : List (PyRef × ModPtr))
    (hH : w.pythonHandles = some hs)
    (hrun : initLoad py config b evs w = some o) (hret : o.ret ≠ 0) :
    mapFind o.ret hs = none ∧
    o.world.pythonHandles = some (mapPlace o.ret w.nextMod hs) ∧
    o.world.pythonModules = w.pythonModules ∧
    (∃ m, o.world.mods w.nextMod = some m ∧ m.m_name = config.plugin) ∧
    (∀ p, p ≠ w.nextMod → o.world.mods p = w.mods p) ∧
    o.world.nextMod = w.nextMod + 1 ∧
    o.events.countP Event.isImport = evs.countP Event.isImport + 1 ∧
    o.events.countP Event.isNewInterpreter = evs.countP Event.isNewInterpreter + 1 := by
  unfold initLoad at hrun
  by_cases hi : py.newInterp = 0
  · simp only [hi, if_true, Option.some.injEq] at hrun
    subst hrun
    exact absurd rfl hret
  simp only [hi, if_false] at hrun
  by_cases hn : py.newObj = 0
  · simp only [hn, if_true, Option.some.injEq] at hrun
    subst hrun
    exact absurd rfl hret
  simp only [hn, if_false] at hrun
  cases hf : mapFind py.pReturn hs with
  | some x =>
    simp only [initCallAndRegister, hH, mapInsert, hf, if_true, Option.some.injEq] at hrun
    subst hrun
    exact absurd rfl hret
  | none =>
    simp only [initCallAndRegister, hH, mapInsert, hf, if_true, Option.some.injEq] at hrun
    subst hrun
    refine ⟨hf, rfl, rfl, ⟨_, if_pos rfl, rfl⟩, fun p hp => if_neg hp, rfl, ?_, ?_⟩
    · simp only [releaseLocks, hi, if_false]
      simp [List.countP_append, List.countP_cons, Event.isImport]
    · simp only [releaseLocks, hi, if_false]
      simp [List.countP_append, List.countP_cons, Event.isNewInterpreter, hi]

theorem initReuse_success (py : InitEnv) (config : ConfigCategory) (mp : ModPtr)
    (m0 : PythonModule) (evs : List Event) (w : World) (o : Outcome PyRef)
    (hs : List (PyRef × ModPtr)) (hH : w.pythonHandles = some hs)
    (hrun : initReuse py config mp m0 evs w = some o) (hret : o.ret ≠ 0) :
    mapFind o.ret hs = none ∧
    o.world.pythonHandles = some (mapPlace o.ret mp hs) ∧
    o.world.pythonModules = w.pythonModules ∧
    o.world.mods mp = some { m0 with m_categoryName := config.name } ∧
    (∀ p, p ≠ mp → o.world.mods p = w.mods p) ∧
    o.world.nextMod = w.nextMod ∧
    o.events.countP Event.isImport = evs.countP Event.isImport ∧
    o.events.countP Event.isNewInterpreter = evs.countP Event.isNewInterpreter := by
  unfold initReuse at hrun
  cases hf : mapFind py.pReturn hs with
  | some x =>
    simp only [initCallAndRegister, hH, mapInsert, hf, if_true, Option.some.injEq] at hrun
    subst hrun
    exact absurd rfl hret
  | none =>
    simp only [initCallAndRegister, hH, mapInsert, hf, if_true, Option.some.injEq] at hrun
    subst hrun
    refine ⟨hf, rfl, rfl, if_pos rfl, fun p hp => if_neg hp, rfl, ?_, ?_⟩
    · simp [releaseLocks, List.countP_append, List.countP_cons, Event.isImport]
    · simp [releaseLocks, List.countP_append, List.countP_cons, Event.isNewInterpreter]

theorem firstCallReuses_of_hit (w : World) (pName : String) (hs : List (PyRef × ModPtr))
    (b : Bool) (hH : w.pythonHandles = some hs)
    (hsr : scanHandles w.mods pName hs = some (some b)) :
    firstCallReuses w pName = false := by
  unfold firstCallReuses
  rw [hH]
  cases w.pythonModules <;> simp [hsr]

theorem init_success (py : InitEnv) (config : ConfigCategory) (w : World)
    (o : Outcome PyRef) (hwf : w.WF)
    (hrun : filter_plugin_init_fn py config w = some o) (hret : o.ret ≠ 0) :
    ∃ hs mp m, w.pythonHandles = some hs ∧ mapFind o.ret hs = none ∧
      o.world.pythonHandles = some (mapPlace o.ret mp hs) ∧
      o.world.pythonModules = w.pythonModules ∧
      o.world.mods mp = some m ∧ m.m_name = config.plugin ∧
      (∀ p m0, w.mods p = some m0 → ∃ m1, o.world.mods p = some m1 ∧ m1.m_name = m0.m_name) ∧
      (∀ p m1, o.world.mods p = some m1 → p < o.world.nextMod) ∧
      mp < o.world.nextMod ∧ w.nextMod ≤ o.world.nextMod ∧
      (firstCallReuses w config.plugin = false → w.nextMod ≤ mp) ∧
      o.events.countP Event.isImport
        + (if firstCallReuses w config.plugin = true then 1 else 0) = 1 ∧
      o.events.countP Event.isNewInterpreter
        + (if firstCallReuses w config.plugin = true then 1 else 0) = 1 := by
  obtain ⟨⟨hs, hH, hlive⟩, ⟨pms, hM, hreg⟩, halloc, hpos⟩ := hwf
  have load : ∀ (b : Bool) (evs : List Event), evs.countP Event.isImport = 0 →
      evs.countP Event.isNewInterpreter = 0 → firstCallReuses w config.plugin = false →
      initLoad py config b evs w = some o →
      ∃ hs mp m, w.pythonHandles = some hs ∧ mapFind o.ret hs = none ∧
        o.world.pythonHandles = some (mapPlace o.ret mp hs) ∧
        o.world.pythonModules = w.pythonModules ∧
        o.world.mods mp = some m ∧ m.m_name = config.plugin ∧
        (∀ p m0, w.mods p = some m0 →
          ∃ m1, o.world.mods p = some m1 ∧ m1.m_name = m0.m_name) ∧
        (∀ p m1, o.world.mods p = some m1 → p < o.world.nextMod) ∧
        mp < o.world.nextMod ∧ w.nextMod ≤ o.world.nextMod ∧
        (firstCallReuses w config.plugin = false → w.nextMod ≤ mp) ∧
        o.events.countP Event.isImport
          + (if firstCallReuses w config.plugin = true then 1 else 0) = 1 ∧
        o.events.countP Event.isNewInterpreter
          + (if firstCallReuses w config.plugin = true then 1 else 0) = 1 := by
    intro b evs hci hcn hfr hload
    obtain ⟨h1, h2, h3, ⟨m, hm, hname⟩, h5, h6, h7, h8⟩ :=
      initLoad_success py config b evs w o hs hH hload hret
    refine ⟨hs, w.nextMod, m, hH, h1, h2, h3, hm, hname, ?_, ?_, ?_, ?_, fun _ => le_refl _,
      ?_, ?_⟩
    · intro p m0 hp
      have hlt := halloc p m0 hp
      exact ⟨m0, by rw [h5 p (Nat.ne_of_lt hlt)]; exact hp, rfl⟩
    · intro p m1 hp
      rw [h6]
      by_cases hpn : p = w.nextMod
      · rw [hpn]; exact Nat.lt_succ_self _
      · rw [h5 p hpn] at hp
        exact Nat.lt_succ_of_lt (halloc p m1 hp)
    · rw [h6]; exact Nat.lt_succ_self _
    · rw [h6]; exact Nat.le_succ _
    · simp [h7, hci, hfr]
    · simp [h8, hcn, hfr]
  unfold filter_plugin_init_fn at hrun
  simp only [hM, hH] at hrun
  obtain ⟨sr, hsr⟩ := scanHandles_total w.mods config.plugin hs hlive
  rw [hsr] at hrun
  cases sr with
  | some b =>
    simp only [] at hrun
    exact load b _ (by simp [Event.isImport]) (by simp [Event.isNewInterpreter])
      (firstCallReuses_of_hit w _ hs b hH hsr) hrun
  | none =>
    simp only [] at hrun
    cases hf : mapFind config.plugin pms with
    | none =>
      rw [hf] at hrun
      simp only [] at hrun
      refine load false _ (by simp [Event.isImport]) (by simp [Event.isNewInterpreter]) ?_ hrun
      simp [firstCallReuses, hH, hM, hf]
    | some mp =>
      rw [hf] at hrun
      simp only [] at hrun
      by_cases hmp : mp = 0
      · simp only [hmp, if_true, Option.some.injEq] at hrun
        subst hrun
        exact absurd rfl hret
      obtain ⟨m0, hm0, hname0⟩ := hreg config.plugin mp hf hmp
      simp only [hmp, if_false, hm0] at hrun
      by_cases hz : m0.m_module = 0
      · simp only [hz, if_true, Option.some.injEq] at hrun
        subst hrun
        exact absurd rfl hret
      simp only [hz, if_false] at hrun
      obtain ⟨h1, h2, h3, h4, h5, h6, h7, h8⟩ :=
        initReuse_success py config mp m0 _ w o hs hH hrun hret
      have hfr : firstCallReuses w config.plugin = true := by
        simp [firstCallReuses, hH, hM, hf, hsr]
      have hlt := halloc mp m0 hm0
      refine ⟨hs, mp, _, hH, h1, h2, h3, h4, hname0, ?_, ?_, ?_, ?_, ?_, ?_, ?_⟩
      · intro p m1 hp
        by_cases hpm : p = mp
        · subst hpm
          rw [hm0] at hp
          cases hp
          exact ⟨_, h4, rfl⟩
        · exact ⟨m1, by rw [h5 p hpm]; exact hp, rfl⟩
      · intro p m1 hp
        rw [h6]
        by_cases hpm : p = mp
        · rw [hpm]; exact hlt
        · rw [h5 p hpm] at hp
          exact halloc p m1 hp
      · rw [h6]; exact hlt
      · rw [h6]
      · intro hc
        rw [hfr] at hc
        cases hc
      · simp [h7, hfr, Event.isImport]
      · simp [h8, hfr, Event.isNewInterpreter]

theorem init_success_wf (py : InitEnv) (config : ConfigCategory) (w : World)
    (o : Outcome PyRef) (hwf : w.WF)
    (hrun : filter_plugin_init_fn py config w = some o) (hret : o.ret ≠ 0) :
    o.world.WF ∧ firstCallReuses o.world config.plugin = false := by
  obtain ⟨hs, mp, m, hH, hfree, hH1, hM1, hm, hname, hkeep, halloc1, hlt, hle, -, -, -⟩ :=
    init_success py config w o hwf hrun hret
  obtain ⟨⟨hs0, hH0, hlive⟩, ⟨pms, hM, hreg⟩, -, hpos⟩ := hwf
  rw [hH] at hH0
  cases hH0
  have hlive1 : ∀ e ∈ mapPlace o.ret mp hs, ∃ m1, o.world.mods e.2 = some m1 := by
    intro e he
    rcases (mem_mapPlace _ _ _ _).1 he with heq | hmem
    · subst heq
      exact ⟨m, hm⟩
    · obtain ⟨m0, hm0⟩ := hlive e hmem
      obtain ⟨m1, hm1, -⟩ := hkeep _ _ hm0
      exact ⟨m1, hm1⟩
  refine ⟨⟨⟨_, hH1, hlive1⟩, ⟨pms, hM1.trans hM, ?_⟩, halloc1,
    Nat.lt_of_lt_of_le hpos hle⟩, ?_⟩
  · intro name x hf hx
    obtain ⟨m0, hm0, hn0⟩ := hreg name x hf hx
    obtain ⟨m1, hm1, hn1⟩ := hkeep _ _ hm0
    exact ⟨m1, hm1, hn1.trans hn0⟩
  · obtain ⟨b, hb⟩ := scanHandles_hit o.world.mods config.plugin _ hlive1
      ⟨(o.ret, mp), (mem_mapPlace _ _ _ _).2 (Or.inl rfl), m, hm, hname⟩
    exact firstCallReuses_of_hit o.world _ _ b hH1 hb

/-! ## Initialisation: sequences of calls for one plugin name -/

theorem initSeq_same_name (P : String) (calls : List (InitEnv × ConfigCategory)) :
    ∀ (w : World) (r : Run), w.WF → (∀ c ∈ calls, c.2.plugin = P) →
      initSeq calls w = some r → (∀ h ∈ r.rets, h ≠ 0) →
      ∃ hs hs1, w.pythonHandles = some hs ∧ r.world.pythonHandles = some hs1 ∧
        r.rets.length = calls.length ∧ r.rets.Nodup ∧
        (∀ h ∈ r.rets, mapFind h hs = none) ∧
        (∀ h ∈ r.rets, ∃ mp m, mapFind h hs1 = some mp ∧ r.world.mods mp = some m ∧
          m.m_name = P ∧ (firstCallReuses w P = false → w.nextMod ≤ mp)) ∧
        (r.rets.map (fun h => mapFind h hs1)).Nodup ∧
        (∀ h x, mapFind h hs = some x → mapFind h hs1 = some x) ∧
        (∀ p m0, w.mods p = some m0 →
          ∃ m1, r.world.mods p = some m1 ∧ m1.m_name = m0.m_name) ∧
        r.events.countP Event.isImport
          + (if firstCallReuses w P = true ∧ calls.length ≠ 0 then 1 else 0) = calls.length ∧
        r.events.countP Event.isNewInterpreter
          + (if firstCallReuses w P = true ∧ calls.length ≠ 0 then 1 else 0) = calls.length := by
  induction calls with
  | nil =>
    intro w r hwf _ hrun _
    simp only [initSeq, Option.some.injEq] at hrun
    subst hrun
    obtain ⟨⟨hs, hH, -⟩, -⟩ := hwf
    exact ⟨hs, hs, hH, hH, rfl, List.nodup_nil, by simp, by simp, by simp,
      fun _ _ h => h, fun p m0 h => ⟨m0, h, rfl⟩, by simp, by simp⟩
  | cons c rest ih =>
    intro w r hwf hname hrun hsucc
    obtain ⟨py, config⟩ := c
    have hP : config.plugin = P := hname (py, config) (List.mem_cons_self _ _)
    simp only [initSeq] at hrun
    cases hinit : filter_plugin_init_fn py config w with
    | none => simp [hinit] at hrun
    | some o =>
      simp only [hinit] at hrun
      cases hrest : initSeq rest o.world with
      | none => simp [hrest] at hrun
      | some r1 =>
        simp only [hrest, Option.some.injEq] at hrun
        subst hrun
        have hret : o.ret ≠ 0 := hsucc o.ret (List.mem_cons_self _ _)
        have hsucc1 : ∀ h ∈ r1.rets, h ≠ 0 := fun h hh => hsucc h (List.mem_cons_of_mem _ hh)
        obtain ⟨hs, mp, m, hH, hfree, hH1, -, hm, hmn, hkeep, -, hlt, hle, hlow, hci, hcn⟩ :=
          init_success py config w o hwf hinit hret
        obtain ⟨hwf1, hfr1⟩ := init_success_wf py config w o hwf hinit hret
        rw [hP] at hmn hlow hci hcn hfr1
        obtain ⟨hs0, hs1, hH0, hHr, hlen, hnd, hnew, hreg, hmnd, hold, hkeep1, hci1, hcn1⟩ :=
          ih o.world r1 hwf1 (fun c hc => hname c (List.mem_cons_of_mem _ hc)) hrest hsucc1
        rw [hH1] at hH0
        cases hH0
        have hfind : mapFind o.ret (mapPlace o.ret mp hs) = some mp := by
          rw [mapFind_mapPlace _ _ _ _ hfree]
          simp
        have hfind1 : mapFind o.ret hs1 = some mp := hold _ _ hfind
        refine ⟨hs, hs1, hH, hHr, by simp [hlen], ?_, ?_, ?_, ?_, ?_, ?_, ?_, ?_⟩
        · refine List.nodup_cons.2 ⟨?_, hnd⟩
          intro hmem
          rw [hnew _ hmem] at hfind
          cases hfind
        · intro h hh
          rcases List.mem_cons.1 hh with heq | hmem
          · rw [heq]; exact hfree
          · have h1 := hnew h hmem
            rw [mapFind_mapPlace _ _ _ _ hfree] at h1
            by_cases hho : h = o.ret
            · simp [hho] at h1
            · simpa [hho] using h1
        · intro h hh
          rcases List.mem_cons.1 hh with heq | hmem
          · obtain ⟨m1, hm1, hn1⟩ := hkeep1 mp m hm
            exact ⟨mp, m1, by rw [heq]; exact hfind1, hm1, hn1.trans hmn, hlow⟩
          · obtain ⟨mp1, m1, hf1, hm1, hn1, hlow1⟩ := hreg h hmem
            exact ⟨mp1, m1, hf1, hm1, hn1, fun _ => Nat.le_trans hle (hlow1 hfr1)⟩
        · simp only [List.map_cons]
          refine List.nodup_cons.2 ⟨?_, hmnd⟩
          intro hmem
          obtain ⟨h, hh, heq⟩ := List.mem_map.1 hmem
          obtain ⟨mp1, m1, hf1, -, -, hlow1⟩ := hreg h hh
          rw [hf1, hfind1] at heq
          cases heq
          exact absurd hlt (Nat.not_lt.2 (hlow1 hfr1))
        · intro h x hx
          apply hold
          rw [mapFind_mapPlace _ _ _ _ hfree]
          by_cases hho : h = o.ret
          · rw [hho, hfree] at hx
            cases hx
          · simpa [hho] using hx
        · intro p m0 hp
          obtain ⟨m1, hm1, hn1⟩ := hkeep p m0 hp
          obtain ⟨m2, hm2, hn2⟩ := hkeep1 p m1 hm1
          exact ⟨m2, hm2, hn2.trans hn1⟩
        · simp only [hfr1, Bool.false_eq_true, false_and, if_false, Nat.add_zero] at hci1
          simp only [List.countP_append, hci1, List.length_cons, ne_eq, Nat.add_one_ne_zero,
            not_false_eq_true, and_true]
          omega
        · simp only [hfr1, Bool.false_eq_true, false_and, if_false, Nat.add_zero] at hcn1
          simp only [List.countP_append, hcn1, List.length_cons, ne_eq, Nat.add_one_ne_zero,
            not_false_eq_true, and_true]
          omega

/-- C2, as stated, fails: a second successful `filter_plugin_init_fn` for the
same plugin name starts a new interpreter and imports the shim again, and its
handle is registered with a module record of its own.  This holds both from
empty registries (two imports for two calls) and from a module registry that
already holds the plugin (the second call imports although the first did
not). -/
theorem init_second_instance_imports_again :
    (∃ r, initSeq twoCalls emptyWorld = some r ∧ r.rets = [7, 8] ∧
      r.events.countP Event.isImport = 2 ∧
      r.events.countP Event.isNewInterpreter = 2 ∧
      modulesOf r.world r.rets = [some 1, some 2]) ∧
    (∃ r, initSeq twoCalls loadedWorld = some r ∧ r.rets = [7, 8] ∧
      r.events.countP Event.isImport = 1 ∧
      r.events.countP Event.isNewInterpreter = 1 ∧
      modulesOf r.world r.rets = [some 1, some 2]) :=
  ⟨⟨_, rfl, rfl, by decide, by decide, by decide⟩,
   ⟨_, rfl, rfl, by decide, by decide, by decide⟩⟩

/-- C2, amended: in a sequence of `N` successful `filter_plugin_init_fn` calls
with the same plugin name `P`, started from a well-formed state, only the
first call can use the record of `pythonModules` as it is (when no handle
entry carries the name yet); every other call starts a new interpreter,
imports the shim and builds a module record of its own, so the calls perform
`N` imports and interpreter creations, or `N - 1` when the first one reuses.
The `N` calls return `N` pairwise distinct handles, each registered in
`pythonHandles` with a live module record named `P`, and these `N` records are
pairwise distinct. -/
theorem init_same_name_sequence (P : String) (calls : List (InitEnv × ConfigCategory))
    (w : World) (r : Run) (hwf : w.WF) (hname : ∀ c ∈ calls, c.2.plugin = P)
    (hrun : initSeq calls w = some r) (hsucc : ∀ h ∈ r.rets, h ≠ 0) :
    r.rets.length = calls.length ∧ r.rets.Nodup ∧
    (∀ h ∈ r.rets, ∃ hs mp m, r.world.pythonHandles = some hs ∧ mapFind h hs = some mp ∧
      r.world.mods mp = some m ∧ m.m_name = P) ∧
    (modulesOf r.world r.rets).Nodup ∧
    (calls ≠ [] →
      r.events.countP Event.isImport
        + (if firstCallReuses w P = true then 1 else 0) = calls.length ∧
      r.events.countP Event.isNewInterpreter
        + (if firstCallReuses w P = true then 1 else 0) = calls.length) := by
  obtain ⟨hs, hs1, -, hHr, hlen, hnd, -, hreg, hmnd, -, -, hci, hcn⟩ :=
    initSeq_same_name P calls w r hwf hname hrun hsucc
  refine ⟨hlen, hnd, ?_, ?_, ?_⟩
  · intro h hh
    obtain ⟨mp, m, hf, hm, hn, -⟩ := hreg h hh
    exact ⟨hs1, mp, m, hHr, hf, hm, hn⟩
  · simpa [modulesOf, hHr] using hmnd
  · intro hne
    have hlen0 : calls.length ≠ 0 := fun h0 => hne (List.length_eq_zero.1 h0)
    simp only [hlen0, ne_eq, not_false_eq_true, and_true] at hci hcn
    exact ⟨hci, hcn⟩

/-- Witness of C2 (amended): two initialisations of `foo` after
`PluginInterfaceInit` loaded it. -/
theorem init_same_name_sequence_witness :
    ∃ r, initSeq twoCalls loadedWorld = some r ∧
      r.rets.length = twoCalls.length ∧ r.rets.Nodup ∧
      (∀ h ∈ r.rets, ∃ hs mp m, r.world.pythonHandles = some hs ∧
        mapFind h hs = some mp ∧ r.world.mods mp = some m ∧ m.m_name = "foo") ∧
      (modulesOf r.world r.rets).Nodup ∧
      (twoCalls ≠ [] →
        r.events.countP Event.isImport
          + (if firstCallReuses loadedWorld "foo" = true then 1 else 0) = twoCalls.length ∧
        r.events.countP Event.isNewInterpreter
          + (if firstCallReuses loadedWorld "foo" = true then 1 else 0)
            = twoCalls.length) := by
  have hrets : (initSeq twoCalls loadedWorld).map (fun r => r.rets) = some [7, 8] := rfl
  cases hrun : initSeq twoCalls loadedWorld with
  | none => simp [hrun] at hrets
  | some r =>
    have hr : r.rets = [7, 8] := by simpa [hrun] using hrets
    exact ⟨r, rfl, init_same_name_sequence "foo" twoCalls loadedWorld r loadedWorld_wf
      (by decide) hrun (by rw [hr]; decide)⟩

/-! ## Initialisation: a registration collision -/

theorem init_reuse_collision (py : InitEnv) (config : ConfigCategory) (w : World)
    (hs : List (PyRef × ModPtr)) (pms : List (String × ModPtr)) (mp x : ModPtr)
    (m : PythonModule) (hH : w.pythonHandles = some hs) (hM : w.pythonModules = some pms)
    (hscan : scanHandles w.mods config.plugin hs = some none)
    (hfind : mapFind config.plugin pms = some mp) (hmp : mp ≠ 0)
    (hm : w.mods mp = some m) (hcode : m.m_module ≠ 0)
    (hused : mapFind py.pReturn hs = some x) :
    ∃ o, filter_plugin_init_fn py config w = some o ∧ o.ret = 0 ∧
      o.world.pythonHandles = some hs ∧ o.world.pythonModules = some pms ∧
      o.world.mods mp = none ∧
      o.events = [.scanHandles, .findModule config.plugin, .gilEnsure,
                  .callInit m.m_module config.itemsJSON,
                  .insertHandle py.pReturn mp false, .pyClear m.m_module,
                  .deleteModule mp, .gilRelease] := by
  refine ⟨⟨{ w with mods := fun p => if p = mp then none else
                if p = mp then some { m with m_categoryName := config.name } else w.mods p },
           [.scanHandles, .findModule config.plugin, .gilEnsure,
            .callInit m.m_module config.itemsJSON,
            .insertHandle py.pReturn mp false, .pyClear m.m_module,
            .deleteModule mp, .gilRelease], 0⟩, ?_, rfl, hH, hM, if_pos rfl, rfl⟩
  simp [filter_plugin_init_fn, hH, hM, hscan, hfind, hmp, hm, hcode, initReuse,
    initCallAndRegister, mapInsert, hused, releaseLocks]

/-- C11: on a registration collision `filter_plugin_init_fn` returns `NULL` and
keeps the existing entry of `pythonHandles`, and it destroys the module record
it was working with whether or not it built it.  In the first run the record
is the one just built (address `2`) and the loaded record of `foo` (address
`1`) stays.  In the second run the record was taken from `pythonModules`: its
code reference is released and it is deleted, `pythonModules` keeps pointing to
it, and the next initialisation of `foo` dereferences the dangling pointer. -/
theorem init_collision_deletes_reused_module :
    (∃ o, filter_plugin_init_fn ⟨3, 200, 5⟩ fooConfig oneHandleWorld = some o ∧
      o.ret = 0 ∧ o.world.pythonHandles = some [(5, 1)] ∧
      o.world.pythonModules = some [("foo", 1)] ∧
      o.world.mods 1 = some fooRecord ∧ o.world.mods 2 = none ∧
      o.events = [.scanHandles, .gilEnsure, .newInterpreter 3,
                  .importModule "filter_shim" "foo", .newModule 2, .callInit 200 "{}",
                  .insertHandle 5 2 false, .pyClear 200, .deleteModule 2,
                  .releaseThread 3]) ∧
    twoPluginWorld.mods 1 = some fooRecord ∧
    (∃ o, filter_plugin_init_fn ⟨3, 200, 5⟩ fooConfig twoPluginWorld = some o ∧
      o.ret = 0 ∧ o.world.pythonHandles = some [(5, 2)] ∧
      o.world.pythonModules = some [("bar", 2), ("foo", 1)] ∧
      o.world.mods 1 = none ∧
      o.events = [.scanHandles, .findModule "foo", .gilEnsure, .callInit 100 "{}",
                  .insertHandle 5 1 false, .pyClear 100, .deleteModule 1, .gilRelease] ∧
      filter_plugin_init_fn ⟨4, 201, 7⟩ fooConfig o.world = none) :=
  ⟨⟨_, rfl, rfl, rfl, rfl, rfl, rfl, rfl⟩, rfl, ⟨_, rfl, rfl, rfl, rfl, rfl, rfl, rfl⟩⟩

/-! ## Initialisation: registry accesses and the lock -/

theorem initLoad_access (py : InitEnv) (config : ConfigCategory) (b : Bool)
    (evs : List Event) (w : World) (hs : List (PyRef × ModPtr))
    (hH : w.pythonHandles = some hs)
    (hevs : evs = [.scanHandles] ∨ ∃ n, evs = [.scanHandles, .findModule n]) :
    ∃ o, initLoad py config b evs w = some o ∧ ReadsThenLockedWrites o.events := by
  unfold initLoad
  by_cases hi : py.newInterp = 0
  · simp only [hi, if_true]
    refine ⟨_, rfl, ?_⟩
    rcases hevs with rfl | ⟨n, rfl⟩ <;>
      simp [ReadsThenLockedWrites, freeAt, heldAt, fromFirstEnsure, Event.lockStep,
        Event.isRegistryRead, Event.isRegistryWrite]
  simp only [hi, if_false]
  by_cases hn : py.newObj = 0
  · simp only [hn, if_true]
    refine ⟨_, rfl, ?_⟩
    rcases hevs with rfl | ⟨n, rfl⟩ <;>
      simp [ReadsThenLockedWrites, freeAt, heldAt, fromFirstEnsure, Event.lockStep,
        Event.isRegistryRead, Event.isRegistryWrite]
  simp only [hn, if_false]
  cases hf : mapFind py.pReturn hs with
  | some x =>
    simp only [initCallAndRegister, hH, mapInsert, hf, if_true]
    refine ⟨_, rfl, ?_⟩
    rcases hevs with rfl | ⟨n, rfl⟩ <;>
      simp [ReadsThenLockedWrites, freeAt, heldAt, fromFirstEnsure, Event.lockStep,
        Event.isRegistryRead, Event.isRegistryWrite, releaseLocks, hi]
  | none =>
    simp only [initCallAndRegister, hH, mapInsert, hf, if_true]
    refine ⟨_, rfl, ?_⟩
    rcases hevs with rfl | ⟨n, rfl⟩ <;>
      simp [ReadsThenLockedWrites, freeAt, heldAt, fromFirstEnsure, Event.lockStep,
        Event.isRegistryRead, Event.isRegistryWrite, releaseLocks, hi]

theorem init_access (py : InitEnv) (config : ConfigCategory) (w : World)
    (hsafe : w.InitSafe config.plugin) :
    ∃ o, filter_plugin_init_fn py config w = some o ∧ ReadsThenLockedWrites o.events := by
  unfold filter_plugin_init_fn
  cases hM : w.pythonModules with
  | none =>
    exact ⟨_, rfl, by simp [ReadsThenLockedWrites, freeAt, heldAt, fromFirstEnsure]⟩
  | some pms =>
    obtain ⟨hs, hH, hlive⟩ := hsafe.1 (by simp [hM])
    obtain ⟨sr, hsr⟩ := scanHandles_total w.mods config.plugin hs hlive
    simp only [hH, hsr]
    cases sr with
    | some b => exact initLoad_access py config b _ w hs hH (Or.inl rfl)
    | none =>
      simp only []
      cases hf : mapFind config.plugin pms with
      | none => exact initLoad_access py config false _ w hs hH (Or.inr ⟨_, rfl⟩)
      | some mp =>
        simp only []
        by_cases hmp : mp = 0
        · simp only [hmp, if_true]
          refine ⟨_, rfl, ?_⟩
          simp [ReadsThenLockedWrites, freeAt, heldAt, fromFirstEnsure, Event.lockStep,
            Event.isRegistryRead, Event.isRegistryWrite]
        obtain ⟨m, hm⟩ := hsafe.2 pms mp hM hf hmp
        simp only [hmp, if_false, hm]
        by_cases hz : m.m_module = 0
        · simp only [hz, if_true]
          refine ⟨_, rfl, ?_⟩
          simp [ReadsThenLockedWrites, freeAt, heldAt, fromFirstEnsure, Event.lockStep,
            Event.isRegistryRead, Event.isRegistryWrite]
        simp only [hz, if_false]
        unfold initReuse
        cases hu : mapFind py.pReturn hs with
        | some x =>
          simp only [initCallAndRegister, hH, mapInsert, hu, if_true]
          refine ⟨_, rfl, ?_⟩
          simp [ReadsThenLockedWrites, freeAt, heldAt, fromFirstEnsure, Event.lockStep,
            Event.isRegistryRead, Event.isRegistryWrite, releaseLocks]
        | none =>
          simp only [initCallAndRegister, hH, mapInsert, hu, if_true]
          refine ⟨_, rfl, ?_⟩
          simp [ReadsThenLockedWrites, freeAt, heldAt, fromFirstEnsure, Event.lockStep,
            Event.isRegistryRead, Event.isRegistryWrite, releaseLocks]

/-- C12, as stated, fails: `filter_plugin_init_fn` scans `pythonHandles` and
looks the name up in `pythonModules` before `PyGILState_Ensure()`, so not every
registry access of a call is made while the lock is held. -/
theorem init_registry_access_under_lock_fails :
    ¬ ∀ (py : InitEnv) (config : ConfigCategory) (w : World), w.InitSafe config.plugin →
        ∃ o, filter_plugin_init_fn py config w = some o ∧
          heldAt Event.isRegistryAccess 0 o.events = true := by
  intro h
  obtain ⟨o, ho, hheld⟩ := h ⟨3, 200, 7⟩ fooConfig loadedWorld (loadedWorld_wf.initSafe _)
  have hev : (filter_plugin_init_fn ⟨3, 200, 7⟩ fooConfig loadedWorld).map (fun o => o.events)
      = some [.scanHandles, .findModule "foo", .gilEnsure, .callInit 100 "{}",
              .insertHandle 7 1 true, .gilRelease] := rfl
  rw [ho] at hev
  simp only [Option.map_some', Option.some.injEq] at hev
  rw [hev] at hheld
  revert hheld
  decide

/-- C12, amended: in every execution of `filter_plugin_init_fn` the scan of
`pythonHandles` by plugin name and the lookup by name in `pythonModules` are
made before the call acquires the lock, while it does not hold it, and no
registry read comes at or after the acquisition; the later insertion into
`pythonHandles` is made after the acquisition and before the release, while
the lock is held. -/
theorem init_registry_reads_before_lock (py : InitEnv) (config : ConfigCategory)
    (w : World) (hsafe : w.InitSafe config.plugin) :
    ∃ o, filter_plugin_init_fn py config w = some o ∧
      freeAt Event.isRegistryRead 0 o.events = true ∧
      (fromFirstEnsure o.events).any Event.isRegistryRead = false ∧
      heldAt Event.isRegistryWrite 0 o.events = true := by
  obtain ⟨o, ho, hfree, hfirst, hheld⟩ := init_access py config w hsafe
  exact ⟨o, ho, hfree, hfirst, hheld⟩

/-- Witness of C12 (amended): a first initialisation of `foo` after
`PluginInterfaceInit` loaded it. -/
theorem init_registry_reads_before_lock_witness :
    loadedWorld.InitSafe fooConfig.plugin ∧
    ∃ o, filter_plugin_init_fn ⟨3, 200, 7⟩ fooConfig loadedWorld = some o ∧
      freeAt Event.isRegistryRead 0 o.events = true ∧
      (fromFirstEnsure o.events).any Event.isRegistryRead = false ∧
      heldAt Event.isRegistryWrite 0 o.events = true :=
  ⟨loadedWorld_wf.initSafe _,
    init_registry_reads_before_lock ⟨3, 200, 7⟩ fooConfig loadedWorld
      (loadedWorld_wf.initSafe _)⟩

end Fledge
